import Mathlib

/-
Verification of the feature-engineering and retraining pipeline of
scripts/retrain.py (solana-predictor).

The pipeline operates on pandas Series of IEEE-754 doubles.  We embed a
double as an `FVal`: an exact finite value (kept as a rational, since no
rounding issue affects the verified properties), +inf, -inf, or NaN, with
the numpy/pandas arithmetic on these values made explicit.  Transcendental
functions that occur only through their crude shape (np.log, np.sqrt) are
model parameters: every theorem below holds for an arbitrary realisation,
in particular the true one.
-/

set_option maxHeartbeats 2000000
set_option maxRecDepth 10000

namespace SolanaRetrain

/-- Model of an IEEE-754 double as produced by the pandas operations in
scripts/retrain.py: an exact finite value, an infinity, or NaN. -/
inductive FVal where
  | fin : ℚ → FVal
  | pinf : FVal
  | ninf : FVal
  | nan : FVal
deriving DecidableEq, Repr

namespace FVal

/-- IEEE negation. -/
def fneg : FVal → FVal
  | fin q => fin (-q)
  | pinf => ninf
  | ninf => pinf
  | nan => nan

/-- IEEE addition (inf + -inf = NaN, NaN absorbs). -/
def fadd : FVal → FVal → FVal
  | fin a, fin b => fin (a + b)
  | fin _, pinf => pinf
  | fin _, ninf => ninf
  | fin _, nan => nan
  | pinf, fin _ => pinf
  | pinf, pinf => pinf
  | pinf, ninf => nan
  | pinf, nan => nan
  | ninf, fin _ => ninf
  | ninf, pinf => nan
  | ninf, ninf => ninf
  | ninf, nan => nan
  | nan, _ => nan

/-- IEEE subtraction. -/
def fsub (a b : FVal) : FVal := fadd a (fneg b)

/-- IEEE multiplication (0 * inf = NaN). -/
def fmul : FVal → FVal → FVal
  | fin a, fin b => fin (a * b)
  | fin a, pinf => if 0 < a then pinf else if a < 0 then ninf else nan
  | fin a, ninf => if 0 < a then ninf else if a < 0 then pinf else nan
  | fin _, nan => nan
  | pinf, fin b => if 0 < b then pinf else if b < 0 then ninf else nan
  | pinf, pinf => pinf
  | pinf, ninf => ninf
  | pinf, nan => nan
  | ninf, fin b => if 0 < b then ninf else if b < 0 then pinf else nan
  | ninf, pinf => ninf
  | ninf, ninf => pinf
  | ninf, nan => nan
  | nan, _ => nan

/-- IEEE division as numpy performs it silently: x/0 is +-inf for x ≠ 0
(our exact zeros are positive zeros), 0/0 is NaN, x/inf is 0. -/
def fdiv : FVal → FVal → FVal
  | fin a, fin b =>
      if b = 0 then (if 0 < a then pinf else if a < 0 then ninf else nan)
      else fin (a / b)
  | fin _, pinf => fin 0
  | fin _, ninf => fin 0
  | fin _, nan => nan
  | pinf, fin b => if b < 0 then ninf else pinf
  | pinf, pinf => nan
  | pinf, ninf => nan
  | pinf, nan => nan
  | ninf, fin b => if b < 0 then pinf else ninf
  | ninf, pinf => nan
  | ninf, ninf => nan
  | ninf, nan => nan
  | nan, _ => nan

/-- Comparison `x > q` as pandas evaluates it inside `Series.where`
(any comparison with NaN is False). -/
def fgt (x : FVal) (q : ℚ) : Bool :=
  match x with
  | fin a => decide (q < a)
  | pinf => true
  | ninf => false
  | nan => false

/-- Comparison `x < q` (any comparison with NaN is False). -/
def flt (x : FVal) (q : ℚ) : Bool :=
  match x with
  | fin a => decide (a < q)
  | pinf => false
  | ninf => true
  | nan => false

/-- NaN test (what `DataFrame.dropna` checks per cell). -/
def isNan : FVal → Bool
  | nan => true
  | _ => false

/-- np.log on an FVal; `lg` realises the real logarithm on positive
rationals.  np.log(0) = -inf, np.log(negative) = NaN. -/
def flog (lg : ℚ → ℚ) : FVal → FVal
  | fin q => if 0 < q then fin (lg q) else if q = 0 then ninf else nan
  | pinf => pinf
  | ninf => nan
  | nan => nan

/-- np.sqrt on an FVal; `sq` realises the real square root on nonnegative
rationals.  np.sqrt(negative) = NaN. -/
def fsqrt (sq : ℚ → ℚ) : FVal → FVal
  | fin q => if 0 ≤ q then fin (sq q) else nan
  | pinf => pinf
  | ninf => nan
  | nan => nan

/-- IEEE absolute value. -/
def fabs : FVal → FVal
  | fin q => fin |q|
  | pinf => pinf
  | ninf => pinf
  | nan => nan

end FVal

open FVal

/-! ### pandas Series combinators

A pandas Series with the default integer index is a list of cells; the
operations used by retrain.py are all index-aligned, so we realise them as
maps over the index range.  Reading past the end yields NaN (missing). -/

/-- Cell of a series at index `t` (missing = NaN). -/
def sget (xs : List FVal) (t : ℕ) : FVal := xs.getD t .nan

/-- `Series.shift(k)` for `k ≥ 0`: cell `t` becomes cell `t - k`, NaN for
the first `k` cells. -/
def sshift (k : ℕ) (xs : List FVal) : List FVal :=
  (List.range xs.length).map (fun t => if t < k then .nan else sget xs (t - k))

/-- `Series.shift(-1)`: cell `t` becomes cell `t+1`, NaN at the end. -/
def sshiftm1 (xs : List FVal) : List FVal :=
  (List.range xs.length).map (fun t => if t + 1 < xs.length then sget xs (t + 1) else .nan)

/-- Index-aligned binary operation between two equally-indexed series. -/
def szip (f : FVal → FVal → FVal) (xs ys : List FVal) : List FVal :=
  (List.range xs.length).map (fun t => f (sget xs t) (sget ys t))

/-- `Series.diff()`: first difference, NaN at index 0. -/
def sdiff (xs : List FVal) : List FVal :=
  (List.range xs.length).map (fun t =>
    if t = 0 then .nan else fsub (sget xs t) (sget xs (t - 1)))

/-- `Series.where(cond, other)` for a pointwise condition: keep the cell
where the condition holds, else the replacement scalar. -/
def swhere (p : FVal → Bool) (other : ℚ) (xs : List FVal) : List FVal :=
  xs.map (fun x => if p x then x else .fin other)

/-- `Series.rolling(w).mean()` (min_periods = w): mean of the last `w`
cells, NaN while the window is not full.  A NaN inside a full window
propagates through the sum. -/
def srollmean (w : ℕ) (xs : List FVal) : List FVal :=
  (List.range xs.length).map (fun t =>
    if w ≤ t + 1 then
      fdiv (((List.range' (t + 1 - w) w).map (sget xs)).foldl fadd (.fin 0)) (.fin (w : ℚ))
    else .nan)

/-- Extract the finite values of a list of cells, `none` if any cell is
not finite. -/
def finList? : List FVal → Option (List ℚ)
  | [] => some []
  | .fin q :: xs => (finList? xs).map (fun l => q :: l)
  | _ :: _ => none

/-- Sample variance (ddof = 1, as pandas `rolling.std` uses). -/
def sampleVar (qs : List ℚ) : ℚ :=
  let m := qs.sum / (qs.length : ℚ)
  (qs.map (fun x => (x - m) ^ 2)).sum / ((qs.length : ℚ) - 1)

/-- `Series.rolling(w).std()` (min_periods = w, ddof = 1); `sq` realises
the real square root. -/
def srollstd (sq : ℚ → ℚ) (w : ℕ) (xs : List FVal) : List FVal :=
  (List.range xs.length).map (fun t =>
    if w ≤ t + 1 then
      match finList? ((List.range' (t + 1 - w) w).map (sget xs)) with
      | some qs => .fin (sq (sampleVar qs))
      | none => .nan
    else .nan)

/-! ### calculate_rsi (scripts/retrain.py lines 74-80) -/

/-- `calculate_rsi(prices, period)`:
    delta = prices.diff()
    gain = (delta.where(delta > 0, 0)).rolling(window=period).mean()
    loss = (-delta.where(delta < 0, 0)).rolling(window=period).mean()
    rs = gain / loss
    return 100 - (100 / (1 + rs)) -/
def calculate_rsi (prices : List FVal) (period : ℕ) : List FVal :=
  let delta := sdiff prices
  let gain := srollmean period (swhere (fun d => fgt d 0) 0 delta)
  let loss := srollmean period ((swhere (fun d => flt d 0) 0 delta).map fneg)
  let rs := szip fdiv gain loss
  rs.map (fun r => fsub (.fin 100) (fdiv (.fin 100) (fadd (.fin 1) r)))

/-! ### Data model -/

/-- One row of the OHLCV CSV (a PriceBar).  `ts` is the timestamp column
(kept as an always-defined number; it is carried through the frame but is
not a feature). -/
structure Bar where
  ts : ℚ
  open_ : ℚ
  high : ℚ
  low : ℚ
  close : ℚ
  volume : ℚ
deriving DecidableEq, Inhabited, Repr

/-- One row of the feature frame built by `calculate_technical_features`:
the raw columns plus every derived column, each cell an FVal. -/
structure FeatRow where
  ts : ℚ
  open_ : FVal
  high : FVal
  low : FVal
  close : FVal
  volume : FVal
  price_change : FVal
  log_return : FVal
  ma_7 : FVal
  ma_30 : FVal
  ma_50 : FVal
  volume_ma : FVal
  volume_ratio : FVal
  rsi : FVal
  bb_middle : FVal
  bb_std : FVal
  bb_upper : FVal
  bb_lower : FVal
  target : FVal
deriving DecidableEq, Repr

/-- Does the row contain a NaN cell?  This is what `df.dropna()` tests
(every column of the frame participates). -/
def FeatRow.hasNan (r : FeatRow) : Bool :=
  isNan r.open_ || isNan r.high || isNan r.low || isNan r.close || isNan r.volume ||
  isNan r.price_change || isNan r.log_return || isNan r.ma_7 || isNan r.ma_30 ||
  isNan r.ma_50 || isNan r.volume_ma || isNan r.volume_ratio || isNan r.rsi ||
  isNan r.bb_middle || isNan r.bb_std || isNan r.bb_upper || isNan r.bb_lower ||
  isNan r.target

/-- Handle of a fitted RandomForestRegressor (external library: only its
interface matters). -/
structure RFModel where
  predictRow : List FVal → FVal
  feature_importances_ : List ℚ

/-- External environment of the script: realisations of np.log and
np.sqrt on rationals, the scikit-learn fit procedure, and the wall clock
(datetime.now() serialisation).  Every theorem holds for an arbitrary
environment. -/
structure Ext where
  logQ : ℚ → ℚ
  sqrtQ : ℚ → ℚ
  fitRF : List (List FVal) → List FVal → RFModel
  now : String

/-! ### calculate_technical_features (lines 82-114), one definition per
source line -/

def closesF (bars : List Bar) : List FVal := bars.map (fun b => .fin b.close)

def volsF (bars : List Bar) : List FVal := bars.map (fun b => .fin b.volume)

/-- `df['price_change'] = df['close'].pct_change()`
(pct_change is close[t]/close[t-1] - 1). -/
def price_change_col (bars : List Bar) : List FVal :=
  szip (fun a b => fsub (fdiv a b) (.fin 1)) (closesF bars) (sshift 1 (closesF bars))

/-- `df['log_return'] = np.log(df['close'] / df['close'].shift(1))`. -/
def log_return_col (lg : ℚ → ℚ) (bars : List Bar) : List FVal :=
  (szip fdiv (closesF bars) (sshift 1 (closesF bars))).map (flog lg)

/-- `df['ma_N'] = df['close'].rolling(N).mean()`. -/
def ma_col (w : ℕ) (bars : List Bar) : List FVal := srollmean w (closesF bars)

/-- `df['volume_ma'] = df['volume'].rolling(7).mean()`. -/
def volume_ma_col (bars : List Bar) : List FVal := srollmean 7 (volsF bars)

/-- `df['volume_ratio'] = df['volume'] / df['volume_ma']`. -/
def volume_ratio_col (bars : List Bar) : List FVal :=
  szip fdiv (volsF bars) (volume_ma_col bars)

/-- `df['rsi'] = calculate_rsi(df['close'])` (period defaults to 14). -/
def rsi_col (bars : List Bar) : List FVal := calculate_rsi (closesF bars) 14

/-- `df['bb_std'] = df['close'].rolling(20).std()`. -/
def bb_std_col (sq : ℚ → ℚ) (bars : List Bar) : List FVal :=
  srollstd sq 20 (closesF bars)

/-- `df['bb_upper'] = df['bb_middle'] + (df['bb_std'] * 2)`. -/
def bb_upper_col (sq : ℚ → ℚ) (bars : List Bar) : List FVal :=
  szip fadd (ma_col 20 bars) ((bb_std_col sq bars).map (fun s => fmul s (.fin 2)))

/-- `df['bb_lower'] = df['bb_middle'] - (df['bb_std'] * 2)`. -/
def bb_lower_col (sq : ℚ → ℚ) (bars : List Bar) : List FVal :=
  szip fsub (ma_col 20 bars) ((bb_std_col sq bars).map (fun s => fmul s (.fin 2)))

/-- `df['target'] = df['close'].shift(-1)`. -/
def target_col (bars : List Bar) : List FVal := sshiftm1 (closesF bars)

/-- Row `t` of the feature frame after all column assignments. -/
def rowAt (ext : Ext) (bars : List Bar) (t : ℕ) : FeatRow :=
  { ts := (bars.getD t default).ts
    open_ := .fin (bars.getD t default).open_
    high := .fin (bars.getD t default).high
    low := .fin (bars.getD t default).low
    close := .fin (bars.getD t default).close
    volume := .fin (bars.getD t default).volume
    price_change := sget (price_change_col bars) t
    log_return := sget (log_return_col ext.logQ bars) t
    ma_7 := sget (ma_col 7 bars) t
    ma_30 := sget (ma_col 30 bars) t
    ma_50 := sget (ma_col 50 bars) t
    volume_ma := sget (volume_ma_col bars) t
    volume_ratio := sget (volume_ratio_col bars) t
    rsi := sget (rsi_col bars) t
    bb_middle := sget (ma_col 20 bars) t
    bb_std := sget (bb_std_col ext.sqrtQ bars) t
    bb_upper := sget (bb_upper_col ext.sqrtQ bars) t
    bb_lower := sget (bb_lower_col ext.sqrtQ bars) t
    target := sget (target_col bars) t }

/-- `calculate_technical_features(df)`: compute every derived column, then
`df.dropna(inplace=True)` — keep exactly the rows without a NaN cell, in
order. -/
def calculate_technical_features (ext : Ext) (bars : List Bar) : List FeatRow :=
  ((List.range bars.length).map (rowAt ext bars)).filter (fun r => !r.hasNan)

/-! ### Saving (lines 242-284): the metrics document -/

/-- Value in the metrics dict of `train_new_model` / the saved JSON. -/
inductive MetricEntry where
  | num : FVal → MetricEntry
  | stats : FVal → FVal → FVal → MetricEntry
  | importances : List (String × FVal) → MetricEntry
deriving DecidableEq, Repr

structure TrainingStats where
  samples_total : MetricEntry
  samples_new : MetricEntry
  features_count : ℕ
deriving DecidableEq, Repr

structure ModelInfo where
  name : String
  version : String
  retrained_date : String
  features : List String
  metrics : List (String × MetricEntry)
  hyperparameters : List (String × ℚ)
  training_stats : TrainingStats
deriving DecidableEq, Repr

/-- The `model_info` document written by `save_model`.  Note
`metrics.get('samples_total', 0)` / `metrics.get('samples_new', 0)`:
the dict built by `train_new_model` has only the keys train / test /
feature_importance, so the defaults always apply. -/
def save_model_info (ext : Ext) (metrics : List (String × MetricEntry))
    (features : List String) : ModelInfo :=
  { name := "Random Forest Solana Predictor"
    version := "2.0"
    retrained_date := ext.now
    features := features
    metrics := metrics
    hyperparameters :=
      [("n_estimators", 150), ("max_depth", 20),
       ("min_samples_split", 5), ("min_samples_leaf", 2)]
    training_stats :=
      { samples_total := (metrics.lookup "samples_total").getD (.num (.fin 0))
        samples_new := (metrics.lookup "samples_new").getD (.num (.fin 0))
        features_count := features.length } }

/-- Contents of an artifact file: opaque bytes (model / scaler pickles,
pre-existing files) or the metrics JSON document. -/
inductive Blob where
  | file : String → Blob
  | metricsJson : ModelInfo → Blob
deriving DecidableEq, Repr

/-! ### Dataset loading (lines 54-72 and 116-156) -/

/-- A file in the feedback directory: whether its name matches the
`feedback_*.csv` glob, whether `pd.read_csv` succeeds on it, and the rows
it contains. -/
structure FeedbackFile where
  nameMatches : Bool
  readable : Bool
  rows : List Bar
deriving DecidableEq, Inhabited, Repr

/-- Log record appended by `log_retraining`. -/
structure LogDetails where
  samples_total : ℕ
  feedback_samples : ℕ
  duration_seconds : String
deriving DecidableEq, Repr

structure LogEntry where
  timestamp : String
  action : String
  details : LogDetails
deriving DecidableEq, Repr

/-- The record appended by `log_retraining` (line 286-295). -/
def mkLogEntry (now : String) (ntot fc : ℕ) : LogEntry :=
  { timestamp := now
    action := "model_retraining"
    details := { samples_total := ntot, feedback_samples := fc, duration_seconds := now } }

/-- Observable filesystem state of the script. -/
structure SysState where
  histData : Option (List Bar)
  feedbackFiles : List FeedbackFile
  currentModel : Option Blob
  currentScaler : Option Blob
  currentMetrics : Option Blob
  backups : List (String × Blob)
  logEntries : List LogEntry
  archivedFeedback : List FeedbackFile
deriving DecidableEq, Repr

/-- `load_feedback_data()`: glob `feedback_*.csv`; None when no file
matches; skip unreadable files with a warning; concatenate the rest; None
when every matching file was unreadable. -/
def load_feedback_data (st : SysState) : Option (List Bar) :=
  let feedback_files := st.feedbackFiles.filter (fun f => f.nameMatches)
  if feedback_files.isEmpty then none
  else
    let feedback_dfs := (feedback_files.filter (fun f => f.readable)).map (fun f => f.rows)
    if feedback_dfs.isEmpty then none else some feedback_dfs.flatten

/-- Fixed feature list of `load_training_data` (every column is always
present, so `available_features` is the whole list). -/
def feature_cols : List String :=
  ["open", "high", "low", "close", "volume",
   "rsi", "ma_7", "ma_30", "ma_50", "volume_ma",
   "volume_ratio", "price_change", "log_return",
   "bb_upper", "bb_middle", "bb_lower"]

/-- `load_training_data()`: None when the historical CSV is missing;
otherwise append feedback rows (if any) to the historical rows — with no
re-sort — and run `calculate_technical_features`. -/
def load_training_data (ext : Ext) (st : SysState) : Option (List FeatRow × List String) :=
  match st.histData with
  | none => none
  | some hist =>
      let df := match load_feedback_data st with
                | some fb => if 0 < fb.length then hist ++ fb else hist
                | none => hist
      some (calculate_technical_features ext df, feature_cols)

/-! ### Training (lines 185-240) -/

/-- `split_idx = int(len(X) * 0.8)`.  The float product `n * 0.8` always
truncates to ⌊4n/5⌋ because the double closest to 0.8 is slightly above
4/5, so the product never rounds below an attained integer. -/
def splitIdx (n : ℕ) : ℕ := n * 8 / 10

/-- `X_train = X.iloc[:split_idx]` (positional, no shuffle). -/
def trainPart (X : List FeatRow) : List FeatRow := X.take (splitIdx X.length)

/-- `X_test = X.iloc[split_idx:]`. -/
def testPart (X : List FeatRow) : List FeatRow := X.drop (splitIdx X.length)

/-- Feature vector of a row, in the fixed `feature_cols` order. -/
def featureVector (r : FeatRow) : List FVal :=
  [r.open_, r.high, r.low, r.close, r.volume,
   r.rsi, r.ma_7, r.ma_30, r.ma_50, r.volume_ma,
   r.volume_ratio, r.price_change, r.log_return,
   r.bb_upper, r.bb_middle, r.bb_lower]

/-- Mean of a list of cells (numpy mean: sum / n). -/
def fmean (xs : List FVal) : FVal :=
  fdiv (xs.foldl fadd (.fin 0)) (.fin (xs.length : ℚ))

/-- Population variance of a list of cells (ddof = 0, as
sklearn.StandardScaler stores in `var_`). -/
def fvarp (xs : List FVal) : FVal :=
  fmean (xs.map (fun x => fmul (fsub x (fmean xs)) (fsub x (fmean xs))))

/-- `StandardScaler.fit`: per-feature (mean_, var_) over the rows. -/
def scalerFit (rows : List (List FVal)) : List (FVal × FVal) :=
  rows.transpose.map (fun c => (fmean c, fvarp c))

/-- `scale_ = sqrt(var_)` with zero scales replaced by 1
(sklearn `_handle_zeros_in_scale`). -/
def fscale (sq : ℚ → ℚ) : FVal → FVal
  | .fin q => if q = 0 then .fin 1 else .fin (sq q)
  | x => x

/-- `StandardScaler.transform` of one row with the fitted statistics:
(x - mean_) / scale_. -/
def scalerTransform (ext : Ext) (stats : List (FVal × FVal)) (row : List FVal) : List FVal :=
  List.zipWith (fun x mv => fdiv (fsub x mv.1) (fscale ext.sqrtQ mv.2)) row stats

/-- Scaler statistics fitted in `train_new_model`: fitted on the train
partition only (line 199: `scaler.fit_transform(X_train)`). -/
def fittedScaler (X : List FeatRow) : List (FVal × FVal) :=
  scalerFit ((trainPart X).map featureVector)

/-- `X_test_scaled = scaler.transform(X_test)` (line 200): the test rows
transformed with the train-fitted statistics, never refit. -/
def testScaled (ext : Ext) (X : List FeatRow) : List (List FVal) :=
  ((testPart X).map featureVector).map (scalerTransform ext (fittedScaler X))

/-- `mean_squared_error`. -/
def mean_squared_error (ytrue ypred : List FVal) : FVal :=
  fmean (List.zipWith (fun a b => fmul (fsub a b) (fsub a b)) ytrue ypred)

/-- `mean_absolute_error`. -/
def mean_absolute_error (ytrue ypred : List FVal) : FVal :=
  fmean (List.zipWith (fun a b => fabs (fsub a b)) ytrue ypred)

/-- `r2_score = 1 - SS_res / SS_tot`. -/
def r2_score (ytrue ypred : List FVal) : FVal :=
  let ssres := (List.zipWith (fun a b => fmul (fsub a b) (fsub a b)) ytrue ypred).foldl fadd (.fin 0)
  let sstot := (ytrue.map (fun y => fmul (fsub y (fmean ytrue)) (fsub y (fmean ytrue)))).foldl fadd (.fin 0)
  fsub (.fin 1) (fdiv ssres sstot)

inductive TrainError where
  | insufficientData : TrainError
  | external : TrainError
deriving DecidableEq, Repr

structure TrainResult where
  model : RFModel
  scaler : List (FVal × FVal)
  metrics : List (String × MetricEntry)

/-- `train_new_model(X, y, features)`: positional 80/20 split, scaler fit
on train only, RandomForest fit (external), metrics on both partitions.
`StandardScaler.fit` raises ValueError on an empty matrix
(scikit-learn check_array rejects 0 samples); that rejection is the
`insufficientData` error — there is no other minimum-sample check. -/
def train_new_model (ext : Ext) (X : List FeatRow) (features : List String) :
    Except TrainError TrainResult :=
  if (trainPart X).isEmpty then .error .insufficientData
  else
    let ytr := (trainPart X).map (fun r => r.target)
    let yte := (testPart X).map (fun r => r.target)
    let XtrS := ((trainPart X).map featureVector).map (scalerTransform ext (fittedScaler X))
    let XteS := testScaled ext X
    let model := ext.fitRF XtrS ytr
    let predTr := XtrS.map model.predictRow
    let predTe := XteS.map model.predictRow
    .ok { model := model
          scaler := fittedScaler X
          metrics :=
            [("train", .stats (fsqrt ext.sqrtQ (mean_squared_error ytr predTr))
                              (mean_absolute_error ytr predTr)
                              (r2_score ytr predTr)),
             ("test", .stats (fsqrt ext.sqrtQ (mean_squared_error yte predTe))
                             (mean_absolute_error yte predTe)
                             (r2_score yte predTe)),
             ("feature_importance",
               .importances (features.zip (model.feature_importances_.map (fun q => FVal.fin q))))] }

/-! ### Orchestration: backup, main (lines 158-183, 300-367) -/

/-- `backup_current_model()`: when a current model exists, *rename* it
(and the scaler / metrics files when they exist) into the backup
directory; returns whether a backup happened.  Renaming empties the
active slot. -/
def backup_current_model (ext : Ext) (st : SysState) : SysState × Bool :=
  match st.currentModel with
  | none => (st, false)
  | some m =>
      ({ st with
          currentModel := none
          currentScaler := none
          currentMetrics := none
          backups := st.backups
            ++ [("model_backup_" ++ ext.now ++ ".pkl", m)]
            ++ (match st.currentScaler with
                | some s => [("scaler_backup_" ++ ext.now ++ ".pkl", s)]
                | none => [])
            ++ (match st.currentMetrics with
                | some x => [("metrics_backup_" ++ ext.now ++ ".json", x)]
                | none => []) },
       true)

inductive Action where
  | loadAttempted
  | printedDiagnostic
  | backedUp
  | trainFailed
  | trainedOk
  | savedModel
  | savedScaler
  | savedMetrics
  | loggedEntry
  | archivedFeedbackFiles
deriving DecidableEq, Repr

inductive RunError where
  | dataUnavailable
  | train : TrainError → RunError
  | artifactWrite
deriving DecidableEq, Repr

/-- Stage failures injected by the environment (exceptions raised by the
external libraries / the filesystem at each step of the `try` block);
`main` catches them, prints a traceback and calls `sys.exit(1)`. -/
structure Oracles where
  trainRaises : Bool
  saveModelRaises : Bool
  saveScalerRaises : Bool
  saveMetricsRaises : Bool
deriving DecidableEq, Repr

structure RunResult where
  exit : ℕ
  state : SysState
  trace : List Action
  err : Option RunError
deriving Repr

/-- Number of feedback files, `len(list(FEEDBACK_DIR.glob("feedback_*.csv")))`:
counted by name before any file is opened. -/
def feedbackCount (st : SysState) : ℕ :=
  (st.feedbackFiles.filter (fun f => f.nameMatches)).length

/-- Body of the `try` block of `main`, after the trigger check. -/
def runPipeline (ext : Ext) (orc : Oracles) (st : SysState) (fc : ℕ) : RunResult :=
  match load_training_data ext st with
  | none =>
      -- `if result is None: print(...); return` — a plain return: exit status 0.
      { exit := 0, state := st, trace := [.printedDiagnostic], err := some .dataUnavailable }
  | some (X, features) =>
      let bk := backup_current_model ext st
      let st1 := bk.1
      let btr : List Action := if bk.2 then [.backedUp] else []
      match train_new_model ext X features with
      | .error e =>
          { exit := 1, state := st1, trace := btr ++ [.trainFailed], err := some (.train e) }
      | .ok res =>
          if orc.trainRaises then
            { exit := 1, state := st1, trace := btr ++ [.trainFailed], err := some (.train .external) }
          else if orc.saveModelRaises then
            { exit := 1, state := st1, trace := btr ++ [.trainedOk], err := some .artifactWrite }
          else
            let st2 := { st1 with currentModel := some (.file "model.pkl(new)") }
            if orc.saveScalerRaises then
              { exit := 1, state := st2, trace := btr ++ [.trainedOk, .savedModel],
                err := some .artifactWrite }
            else
              let st3 := { st2 with currentScaler := some (.file "scaler.pkl(new)") }
              if orc.saveMetricsRaises then
                { exit := 1, state := st3, trace := btr ++ [.trainedOk, .savedModel, .savedScaler],
                  err := some .artifactWrite }
              else
                let st4 := { st3 with
                  currentMetrics := some (.metricsJson (save_model_info ext res.metrics features)) }
                let st5 := { st4 with
                  logEntries := st4.logEntries ++ [mkLogEntry ext.now X.length fc] }
                let st6 :=
                  if 0 < fc then
                    { st5 with
                        feedbackFiles := st5.feedbackFiles.filter (fun f => !f.nameMatches)
                        archivedFeedback := st5.archivedFeedback ++
                          st5.feedbackFiles.filter (fun f => f.nameMatches) }
                  else st5
                { exit := 0, state := st6,
                  trace := btr ++ [.trainedOk, .savedModel, .savedScaler, .savedMetrics,
                                   .loggedEntry] ++
                           (if 0 < fc then [.archivedFeedbackFiles] else []),
                  err := none }

/-- `main(force_retrain)`: count feedback files, apply the ≥ 10 trigger
unless forced, then run the pipeline. -/
def main (ext : Ext) (orc : Oracles) (force_retrain : Bool) (st : SysState) : RunResult :=
  let feedback_count := feedbackCount st
  if force_retrain = false ∧ feedback_count < 10 then
    { exit := 0, state := st, trace := [], err := none }
  else
    let r := runPipeline ext orc st feedback_count
    { r with trace := .loadAttempted :: r.trace }

/-! ## Lemma layer: cell-level characterisation of the columns -/

theorem sget_range_map {f : ℕ → FVal} {n t : ℕ} (h : t < n) :
    sget ((List.range n).map f) t = f t := by
  simp [sget, List.getD_eq_getElem?_getD, List.getElem?_map, List.getElem?_range, h]

theorem sget_map {g : FVal → FVal} {xs : List FVal} {t : ℕ} (h : t < xs.length) :
    sget (xs.map g) t = g (sget xs t) := by
  simp [sget, List.getD_eq_getElem?_getD, List.getElem?_map]
  rw [List.getElem?_eq_getElem h]
  simp

theorem sget_map_bar {f : Bar → FVal} {bars : List Bar} {t : ℕ} (h : t < bars.length) :
    sget (bars.map f) t = f (bars.getD t default) := by
  simp [sget, List.getD_eq_getElem?_getD, List.getElem?_map]
  rw [List.getElem?_eq_getElem h]
  simp [List.getD_eq_getElem?_getD, List.getElem?_eq_getElem h]

theorem fsub_fin (a b : ℚ) : fsub (.fin a) (.fin b) = .fin (a - b) := by
  simp [fsub, fadd, fneg, sub_eq_add_neg]

/-- Abbreviations for the proofs: the raw cell values. -/
def closeQ (bars : List Bar) (t : ℕ) : ℚ := (bars.getD t default).close

def volQ (bars : List Bar) (t : ℕ) : ℚ := (bars.getD t default).volume

/-- Bar-to-bar close delta (meaningful for 1 ≤ t). -/
def deltaQ (bars : List Bar) (t : ℕ) : ℚ := closeQ bars t - closeQ bars (t - 1)

/-- Value of the gain series after `delta.where(delta > 0, 0)` (the NaN at
index 0 compares False, so it is replaced by 0). -/
def gainQ (bars : List Bar) (t : ℕ) : ℚ := if t = 0 then 0 else max (deltaQ bars t) 0

/-- Value of the loss series after `-delta.where(delta < 0, 0)`. -/
def lossQ (bars : List Bar) (t : ℕ) : ℚ := if t = 0 then 0 else max (-(deltaQ bars t)) 0

/-- 14-window gain sum ending at `t`. -/
def gainSum (bars : List Bar) (t : ℕ) : ℚ := ((List.range' (t - 13) 14).map (gainQ bars)).sum

/-- 14-window loss sum ending at `t`. -/
def lossSum (bars : List Bar) (t : ℕ) : ℚ := ((List.range' (t - 13) 14).map (lossQ bars)).sum

theorem closesF_sget {bars : List Bar} {t : ℕ} (h : t < bars.length) :
    sget (closesF bars) t = .fin (closeQ bars t) := by
  simp [closesF, closeQ, sget_map_bar h]

theorem volsF_sget {bars : List Bar} {t : ℕ} (h : t < bars.length) :
    sget (volsF bars) t = .fin (volQ bars t) := by
  simp [volsF, volQ, sget_map_bar h]

theorem closesF_length (bars : List Bar) : (closesF bars).length = bars.length := by
  simp [closesF]

theorem volsF_length (bars : List Bar) : (volsF bars).length = bars.length := by
  simp [volsF]

theorem foldl_fadd_map_fin {α : Type} (l : List α) (g : α → ℚ) (c : ℚ) :
    (l.map (fun x => FVal.fin (g x))).foldl fadd (.fin c) = .fin (c + (l.map g).sum) := by
  induction l generalizing c with
  | nil => simp
  | cons a l ih => simp [fadd, ih, add_assoc]

theorem srollmean_nan {xs : List FVal} {w t : ℕ} (ht : t < xs.length) (hw : t + 1 < w) :
    sget (srollmean w xs) t = .nan := by
  rw [srollmean, sget_range_map ht]
  simp [Nat.not_le.mpr hw]

theorem srollmean_fin {xs : List FVal} {g : ℕ → ℚ} {w t : ℕ} (ht : t < xs.length)
    (hw : w ≤ t + 1) (hw0 : w ≠ 0)
    (hwin : ∀ i ∈ List.range' (t + 1 - w) w, sget xs i = .fin (g i)) :
    sget (srollmean w xs) t
      = .fin (((List.range' (t + 1 - w) w).map g).sum / (w : ℚ)) := by
  rw [srollmean, sget_range_map ht, if_pos hw, List.map_congr_left hwin,
    foldl_fadd_map_fin, fdiv]
  simp [Nat.cast_ne_zero.mpr hw0]

theorem sdiff_length (xs : List FVal) : (sdiff xs).length = xs.length := by simp [sdiff]

theorem swhere_length (p : FVal → Bool) (o : ℚ) (xs : List FVal) :
    (swhere p o xs).length = xs.length := by simp [swhere]

theorem srollmean_length (w : ℕ) (xs : List FVal) :
    (srollmean w xs).length = xs.length := by simp [srollmean]

theorem srollstd_length (sq : ℚ → ℚ) (w : ℕ) (xs : List FVal) :
    (srollstd sq w xs).length = xs.length := by simp [srollstd]

theorem szip_length (f : FVal → FVal → FVal) (xs ys : List FVal) :
    (szip f xs ys).length = xs.length := by simp [szip]

theorem sshift_length (k : ℕ) (xs : List FVal) : (sshift k xs).length = xs.length := by
  simp [sshift]

theorem sshiftm1_length (xs : List FVal) : (sshiftm1 xs).length = xs.length := by
  simp [sshiftm1]

theorem list_sum_nonneg {l : List ℚ} (h : ∀ x ∈ l, 0 ≤ x) : 0 ≤ l.sum := by
  induction l with
  | nil => simp
  | cons a l ih =>
      simp only [List.sum_cons]
      have ha := h a (by simp)
      have hl := ih (fun x hx => h x (by simp [hx]))
      linarith

theorem list_sum_eq_zero_all {l : List ℚ} (h : ∀ x ∈ l, 0 ≤ x) (hs : l.sum = 0) :
    ∀ x ∈ l, x = 0 := by
  induction l with
  | nil => simp
  | cons a l ih =>
      simp only [List.sum_cons] at hs
      have ha := h a (List.mem_cons_self a _)
      have htl : ∀ x ∈ l, (0:ℚ) ≤ x := fun x hx => h x (List.mem_cons_of_mem a hx)
      have hl := list_sum_nonneg htl
      intro x hx
      rcases List.mem_cons.mp hx with rfl | hx'
      · linarith
      · exact ih htl (by linarith) x hx'

theorem list_single_le_sum {l : List ℚ} (h : ∀ x ∈ l, 0 ≤ x) {x : ℚ} (hx : x ∈ l) :
    x ≤ l.sum := by
  induction l with
  | nil => simp at hx
  | cons a l ih =>
      simp only [List.sum_cons]
      have htl : ∀ y ∈ l, (0:ℚ) ≤ y := fun y hy => h y (List.mem_cons_of_mem a hy)
      have hl := list_sum_nonneg htl
      rcases List.mem_cons.mp hx with rfl | hx'
      · linarith
      · have := ih htl hx'
        have ha := h a (List.mem_cons_self a _)
        linarith

theorem gainQ_nonneg (bars : List Bar) (t : ℕ) : 0 ≤ gainQ bars t := by
  unfold gainQ; split
  · exact le_refl 0
  · exact le_max_right _ _

theorem lossQ_nonneg (bars : List Bar) (t : ℕ) : 0 ≤ lossQ bars t := by
  unfold lossQ; split
  · exact le_refl 0
  · exact le_max_right _ _

theorem gainSum_nonneg (bars : List Bar) (t : ℕ) : 0 ≤ gainSum bars t :=
  list_sum_nonneg (by rintro x hx; obtain ⟨i, _, rfl⟩ := List.mem_map.mp hx; exact gainQ_nonneg bars i)

theorem lossSum_nonneg (bars : List Bar) (t : ℕ) : 0 ≤ lossSum bars t :=
  list_sum_nonneg (by rintro x hx; obtain ⟨i, _, rfl⟩ := List.mem_map.mp hx; exact lossQ_nonneg bars i)

theorem sdiff_closes_sget0 {bars : List Bar} (ht : 0 < bars.length) :
    sget (sdiff (closesF bars)) 0 = .nan := by
  rw [sdiff, sget_range_map (by rw [closesF_length]; exact ht)]
  simp

theorem sdiff_closes_sget {bars : List Bar} {t : ℕ} (ht : t < bars.length) (h1 : 1 ≤ t) :
    sget (sdiff (closesF bars)) t = .fin (deltaQ bars t) := by
  rw [sdiff, sget_range_map (by rw [closesF_length]; exact ht), if_neg (by omega)]
  rw [closesF_sget ht, closesF_sget (by omega : t - 1 < bars.length), fsub_fin]
  rfl

theorem gainS_sget {bars : List Bar} {t : ℕ} (ht : t < bars.length) :
    sget (swhere (fun d => fgt d 0) 0 (sdiff (closesF bars))) t = .fin (gainQ bars t) := by
  rw [swhere, sget_map (by rw [sdiff_length, closesF_length]; exact ht)]
  rcases Nat.eq_zero_or_pos t with h0 | h1
  · subst h0
    rw [sdiff_closes_sget0 (by omega)]
    simp [fgt, gainQ]
  · rw [sdiff_closes_sget ht h1]
    simp only [fgt]
    rcases le_or_lt (deltaQ bars t) 0 with hle | hlt
    · rw [if_neg (by simp [not_lt.mpr hle])]
      simp [gainQ, Nat.pos_iff_ne_zero.mp h1, max_eq_right hle]
    · rw [if_pos (by simp [hlt])]
      simp [gainQ, Nat.pos_iff_ne_zero.mp h1, max_eq_left (le_of_lt hlt)]

theorem lossS_sget {bars : List Bar} {t : ℕ} (ht : t < bars.length) :
    sget ((swhere (fun d => flt d 0) 0 (sdiff (closesF bars))).map fneg) t
      = .fin (lossQ bars t) := by
  rw [sget_map (by rw [swhere_length, sdiff_length, closesF_length]; exact ht)]
  rw [swhere, sget_map (by rw [sdiff_length, closesF_length]; exact ht)]
  rcases Nat.eq_zero_or_pos t with h0 | h1
  · subst h0
    rw [sdiff_closes_sget0 (by omega)]
    simp [flt, fneg, lossQ]
  · rw [sdiff_closes_sget ht h1]
    simp only [flt]
    rcases lt_or_le (deltaQ bars t) 0 with hlt | hle
    · rw [if_pos (by simp [hlt])]
      have hq : lossQ bars t = -(deltaQ bars t) := by
        unfold lossQ
        rw [if_neg (Nat.pos_iff_ne_zero.mp h1), max_eq_left (by linarith)]
      rw [hq]
      simp [fneg]
    · rw [if_neg (by simp [not_lt.mpr hle])]
      have hq : lossQ bars t = 0 := by
        unfold lossQ
        rw [if_neg (Nat.pos_iff_ne_zero.mp h1), max_eq_right (by linarith)]
      rw [hq]
      simp [fneg]

theorem gain_avg_sget {bars : List Bar} {t : ℕ} (h14 : 14 ≤ t) (ht : t < bars.length) :
    sget (srollmean 14 (swhere (fun d => fgt d 0) 0 (sdiff (closesF bars)))) t
      = .fin (gainSum bars t / 14) := by
  have hlen : t < (swhere (fun d => fgt d 0) 0 (sdiff (closesF bars))).length := by
    rw [swhere_length, sdiff_length, closesF_length]; exact ht
  rw [srollmean_fin hlen (by omega) (by omega)
    (g := gainQ bars)
    (by
      intro i hi
      have hmem := List.mem_range'_1.mp hi
      exact gainS_sget (by omega))]
  have : t + 1 - 14 = t - 13 := by omega
  rw [this]
  norm_num [gainSum]

theorem loss_avg_sget {bars : List Bar} {t : ℕ} (h14 : 14 ≤ t) (ht : t < bars.length) :
    sget (srollmean 14 ((swhere (fun d => flt d 0) 0 (sdiff (closesF bars))).map fneg)) t
      = .fin (lossSum bars t / 14) := by
  have hlen : t < ((swhere (fun d => flt d 0) 0 (sdiff (closesF bars))).map fneg).length := by
    rw [List.length_map, swhere_length, sdiff_length, closesF_length]; exact ht
  rw [srollmean_fin hlen (by omega) (by omega)
    (g := lossQ bars)
    (by
      intro i hi
      have hmem := List.mem_range'_1.mp hi
      exact lossS_sget (by omega))]
  have : t + 1 - 14 = t - 13 := by omega
  rw [this]
  norm_num [lossSum]

theorem rsi_sget_eq {bars : List Bar} {t : ℕ} (h14 : 14 ≤ t) (ht : t < bars.length) :
    sget (rsi_col bars) t
      = fsub (.fin 100) (fdiv (.fin 100)
          (fadd (.fin 1) (fdiv (.fin (gainSum bars t / 14)) (.fin (lossSum bars t / 14))))) := by
  rw [rsi_col, calculate_rsi]
  have hzlen : t < (szip fdiv
      (srollmean 14 (swhere (fun d => fgt d 0) 0 (sdiff (closesF bars))))
      (srollmean 14 ((swhere (fun d => flt d 0) 0 (sdiff (closesF bars))).map fneg))).length := by
    rw [szip_length, srollmean_length, swhere_length, sdiff_length, closesF_length]; exact ht
  rw [sget_map hzlen, szip,
    sget_range_map (by rw [srollmean_length, swhere_length, sdiff_length, closesF_length]; exact ht),
    gain_avg_sget h14 ht, loss_avg_sget h14 ht]

theorem rsi_col_pos_loss {bars : List Bar} {t : ℕ} (h14 : 14 ≤ t) (ht : t < bars.length)
    (hL : 0 < lossSum bars t) :
    sget (rsi_col bars) t
      = .fin (100 - 100 / (1 + gainSum bars t / lossSum bars t)) := by
  rw [rsi_sget_eq h14 ht]
  set G := gainSum bars t with hG
  set L := lossSum bars t with hLdef
  have hGnn : 0 ≤ G := gainSum_nonneg bars t
  have hL14 : (L / 14 : ℚ) ≠ 0 := by positivity
  have hdiv : (G / 14) / (L / 14) = G / L := by
    rw [div_div_div_comm]
    norm_num
  have hpos : (0:ℚ) < 1 + G / L := by positivity
  rw [fdiv]
  rw [if_neg hL14, hdiv, fadd]
  rw [fdiv, if_neg (by positivity : (1 + G / L : ℚ) ≠ 0), fsub_fin]

theorem rsi_col_loss_zero_gain_pos {bars : List Bar} {t : ℕ} (h14 : 14 ≤ t)
    (ht : t < bars.length) (hL : lossSum bars t = 0) (hG : 0 < gainSum bars t) :
    sget (rsi_col bars) t = .fin 100 := by
  rw [rsi_sget_eq h14 ht, hL]
  norm_num [fdiv, fadd, fsub_fin, hG, div_pos hG]

theorem rsi_col_all_zero {bars : List Bar} {t : ℕ} (h14 : 14 ≤ t)
    (ht : t < bars.length) (hL : lossSum bars t = 0) (hG : gainSum bars t = 0) :
    sget (rsi_col bars) t = .nan := by
  rw [rsi_sget_eq h14 ht, hL, hG]
  norm_num [fdiv, fadd, fsub, fneg]

/-! ### The remaining columns -/

/-- Rolling close sum over the `w`-window ending at `t`. -/
def closeWinSum (bars : List Bar) (w t : ℕ) : ℚ :=
  ((List.range' (t + 1 - w) w).map (closeQ bars)).sum

/-- Rolling volume sum over the 7-window ending at `t`. -/
def volWinSum (bars : List Bar) (t : ℕ) : ℚ :=
  ((List.range' (t + 1 - 7) 7).map (volQ bars)).sum

theorem sshift1_closes_sget0 {bars : List Bar} (ht : 0 < bars.length) :
    sget (sshift 1 (closesF bars)) 0 = .nan := by
  rw [sshift, sget_range_map (by rw [closesF_length]; exact ht)]
  simp

theorem sshift1_closes_sget {bars : List Bar} {t : ℕ} (ht : t < bars.length) (h1 : 1 ≤ t) :
    sget (sshift 1 (closesF bars)) t = .fin (closeQ bars (t - 1)) := by
  rw [sshift, sget_range_map (by rw [closesF_length]; exact ht), if_neg (by omega)]
  exact closesF_sget (by omega)

theorem price_change_sget0 {bars : List Bar} (ht : 0 < bars.length) :
    sget (price_change_col bars) 0 = .nan := by
  rw [price_change_col, szip, sget_range_map (by rw [closesF_length]; exact ht),
    sshift1_closes_sget0 ht, closesF_sget ht]
  simp [fdiv, fsub, fadd, fneg]

theorem price_change_sget {bars : List Bar} {t : ℕ} (ht : t < bars.length) (h1 : 1 ≤ t)
    (hc : closeQ bars (t - 1) ≠ 0) :
    sget (price_change_col bars) t = .fin (closeQ bars t / closeQ bars (t - 1) - 1) := by
  rw [price_change_col, szip, sget_range_map (by rw [closesF_length]; exact ht),
    sshift1_closes_sget ht h1, closesF_sget ht, fdiv, if_neg hc, fsub_fin]

theorem log_return_sget0 {bars : List Bar} {lg : ℚ → ℚ} (ht : 0 < bars.length) :
    sget (log_return_col lg bars) 0 = .nan := by
  rw [log_return_col, sget_map (by rw [szip_length, closesF_length]; exact ht), szip,
    sget_range_map (by rw [closesF_length]; exact ht),
    sshift1_closes_sget0 ht, closesF_sget ht]
  simp [fdiv, flog]

theorem log_return_sget {bars : List Bar} {g : ℚ → ℚ} {t : ℕ} (ht : t < bars.length)
    (h1 : 1 ≤ t) (hc : 0 < closeQ bars (t - 1)) (hc' : 0 < closeQ bars t) :
    sget (log_return_col g bars) t = .fin (g (closeQ bars t / closeQ bars (t - 1))) := by
  rw [log_return_col, sget_map (by rw [szip_length, closesF_length]; exact ht), szip,
    sget_range_map (by rw [closesF_length]; exact ht),
    sshift1_closes_sget ht h1, closesF_sget ht, fdiv, if_neg (ne_of_gt hc), flog,
    if_pos (div_pos hc' hc)]

theorem ma_col_nan {bars : List Bar} {w t : ℕ} (ht : t < bars.length) (hw : t + 1 < w) :
    sget (ma_col w bars) t = .nan := by
  rw [ma_col]
  exact srollmean_nan (by rw [closesF_length]; exact ht) hw

theorem ma_col_fin {bars : List Bar} {w t : ℕ} (ht : t < bars.length) (hw : w ≤ t + 1)
    (hw0 : w ≠ 0) :
    sget (ma_col w bars) t = .fin (closeWinSum bars w t / (w : ℚ)) := by
  rw [ma_col, srollmean_fin (by rw [closesF_length]; exact ht) hw hw0
    (g := closeQ bars)
    (by
      intro i hi
      have hmem := List.mem_range'_1.mp hi
      exact closesF_sget (by omega))]
  rfl

theorem volume_ma_sget {bars : List Bar} {t : ℕ} (ht : t < bars.length) (hw : 7 ≤ t + 1) :
    sget (volume_ma_col bars) t = .fin (volWinSum bars t / 7) := by
  rw [volume_ma_col, srollmean_fin (by rw [volsF_length]; exact ht) hw (by omega)
    (g := volQ bars)
    (by
      intro i hi
      have hmem := List.mem_range'_1.mp hi
      exact volsF_sget (by omega))]
  norm_num [volWinSum]

theorem volume_ma_nan {bars : List Bar} {t : ℕ} (ht : t < bars.length) (hw : t + 1 < 7) :
    sget (volume_ma_col bars) t = .nan := by
  rw [volume_ma_col]
  exact srollmean_nan (by rw [volsF_length]; exact ht) hw

theorem volume_ratio_nan {bars : List Bar} {t : ℕ} (ht : t < bars.length) (hw : t + 1 < 7) :
    sget (volume_ratio_col bars) t = .nan := by
  rw [volume_ratio_col, szip, sget_range_map (by rw [volsF_length]; exact ht),
    volume_ma_nan ht hw, volsF_sget ht]
  simp [fdiv]

theorem volume_ratio_sget {bars : List Bar} {t : ℕ} (ht : t < bars.length) (hw : 7 ≤ t + 1)
    (hs : volWinSum bars t ≠ 0) :
    sget (volume_ratio_col bars) t = .fin (volQ bars t / (volWinSum bars t / 7)) := by
  rw [volume_ratio_col, szip, sget_range_map (by rw [volsF_length]; exact ht),
    volume_ma_sget ht hw, volsF_sget ht, fdiv, if_neg (by positivity)]

theorem finList?_map_fin {α : Type} (l : List α) (g : α → ℚ) :
    finList? (l.map (fun x => FVal.fin (g x))) = some (l.map g) := by
  induction l with
  | nil => rfl
  | cons a l ih => simp [finList?, ih]

theorem bb_std_nan {bars : List Bar} {s : ℚ → ℚ} {t : ℕ} (ht : t < bars.length)
    (hw : t + 1 < 20) :
    sget (bb_std_col s bars) t = .nan := by
  rw [bb_std_col, srollstd, sget_range_map (by rw [closesF_length]; exact ht)]
  simp [Nat.not_le.mpr hw]

theorem bb_std_sget {bars : List Bar} {s : ℚ → ℚ} {t : ℕ} (ht : t < bars.length)
    (hw : 20 ≤ t + 1) :
    sget (bb_std_col s bars) t
      = .fin (s (sampleVar ((List.range' (t + 1 - 20) 20).map (closeQ bars)))) := by
  rw [bb_std_col, srollstd, sget_range_map (by rw [closesF_length]; exact ht), if_pos hw]
  rw [List.map_congr_left
    (g := fun i => FVal.fin (closeQ bars i))
    (by
      intro i hi
      have hmem := List.mem_range'_1.mp hi
      exact closesF_sget (by omega))]
  rw [finList?_map_fin]

theorem ma_col_length (w : ℕ) (bars : List Bar) : (ma_col w bars).length = bars.length := by
  rw [ma_col, srollmean_length, closesF_length]

theorem bb_std_col_length (sq : ℚ → ℚ) (bars : List Bar) :
    (bb_std_col sq bars).length = bars.length := by
  rw [bb_std_col, srollstd_length, closesF_length]

theorem bb_upper_nan {bars : List Bar} {s : ℚ → ℚ} {t : ℕ} (ht : t < bars.length)
    (hw : t + 1 < 20) :
    sget (bb_upper_col s bars) t = .nan := by
  rw [bb_upper_col, szip, sget_range_map (by rw [ma_col_length]; exact ht),
    ma_col_nan ht hw, sget_map (by rw [bb_std_col_length]; exact ht),
    bb_std_nan ht hw]
  simp [fadd, fmul]

theorem bb_upper_sget {bars : List Bar} {s : ℚ → ℚ} {t : ℕ} (ht : t < bars.length)
    (hw : 20 ≤ t + 1) :
    sget (bb_upper_col s bars) t
      = .fin (closeWinSum bars 20 t / 20
          + s (sampleVar ((List.range' (t + 1 - 20) 20).map (closeQ bars))) * 2) := by
  rw [bb_upper_col, szip, sget_range_map (by rw [ma_col_length]; exact ht),
    ma_col_fin ht hw (by omega), sget_map (by rw [bb_std_col_length]; exact ht),
    bb_std_sget ht hw, fmul, fadd]
  norm_num

theorem bb_lower_nan {bars : List Bar} {s : ℚ → ℚ} {t : ℕ} (ht : t < bars.length)
    (hw : t + 1 < 20) :
    sget (bb_lower_col s bars) t = .nan := by
  rw [bb_lower_col, szip, sget_range_map (by rw [ma_col_length]; exact ht),
    ma_col_nan ht hw, sget_map (by rw [bb_std_col_length]; exact ht),
    bb_std_nan ht hw]
  simp [fsub, fadd, fneg, fmul]

theorem bb_lower_sget {bars : List Bar} {s : ℚ → ℚ} {t : ℕ} (ht : t < bars.length)
    (hw : 20 ≤ t + 1) :
    sget (bb_lower_col s bars) t
      = .fin (closeWinSum bars 20 t / 20
          - s (sampleVar ((List.range' (t + 1 - 20) 20).map (closeQ bars))) * 2) := by
  rw [bb_lower_col, szip, sget_range_map (by rw [ma_col_length]; exact ht),
    ma_col_fin ht hw (by omega), sget_map (by rw [bb_std_col_length]; exact ht),
    bb_std_sget ht hw, fmul, fsub_fin]
  norm_num

theorem target_sget {bars : List Bar} {t : ℕ} (ht2 : t + 1 < bars.length) :
    sget (target_col bars) t = .fin (closeQ bars (t + 1)) := by
  rw [target_col, sshiftm1,
    sget_range_map (by rw [closesF_length]; omega)]
  rw [closesF_length, if_pos ht2]
  exact closesF_sget ht2

theorem target_nan {bars : List Bar} {t : ℕ} (ht : t < bars.length)
    (hlast : ¬ t + 1 < bars.length) :
    sget (target_col bars) t = .nan := by
  rw [target_col, sshiftm1, sget_range_map (by rw [closesF_length]; exact ht)]
  rw [closesF_length, if_neg hlast]

/-! ### Which rows does dropna keep? -/

theorem volWinSum_pos {bars : List Bar} {t : ℕ} (ht : t < bars.length) (hw : 7 ≤ t + 1)
    (hvol : ∀ i, i < bars.length → 0 < volQ bars i) : 0 < volWinSum bars t := by
  have hnn : ∀ x ∈ (List.range' (t + 1 - 7) 7).map (volQ bars), (0:ℚ) ≤ x := by
    rintro x hx
    obtain ⟨i, hi, rfl⟩ := List.mem_map.mp hx
    have hmem := List.mem_range'_1.mp hi
    exact le_of_lt (hvol i (by omega))
  have hmem : volQ bars t ∈ (List.range' (t + 1 - 7) 7).map (volQ bars) :=
    List.mem_map.mpr ⟨t, List.mem_range'_1.mpr ⟨by omega, by omega⟩, rfl⟩
  exact lt_of_lt_of_le (hvol t ht) (list_single_le_sum hnn hmem)

/-- The central characterisation: under positive closes and volumes, and
no all-zero RSI window at a candidate row, `dropna` keeps row `t` exactly
when every lookback window is full (the largest is ma_50) and the next-bar
target exists. -/
theorem rowAt_hasNan_iff {ext : Ext} {bars : List Bar} {t : ℕ} (ht : t < bars.length)
    (hclose : ∀ i, i < bars.length → 0 < closeQ bars i)
    (hvol : ∀ i, i < bars.length → 0 < volQ bars i)
    (hrsi : ∀ i, 49 ≤ i → i + 1 < bars.length → lossSum bars i = 0 → gainSum bars i ≠ 0) :
    (rowAt ext bars t).hasNan = false ↔ (49 ≤ t ∧ t + 1 < bars.length) := by
  constructor
  · intro h
    constructor
    · by_contra h49
      have hma : sget (ma_col 50 bars) t = .nan := ma_col_nan ht (by omega)
      simp [FeatRow.hasNan, rowAt, hma, isNan] at h
    · by_contra hlast
      have htg : sget (target_col bars) t = .nan := target_nan ht hlast
      simp [FeatRow.hasNan, rowAt, htg, isNan] at h
  · rintro ⟨h49, hlast⟩
    have hc1 : 0 < closeQ bars (t - 1) := hclose _ (by omega)
    have hct : 0 < closeQ bars t := hclose _ ht
    have e1 := price_change_sget ht (by omega) (ne_of_gt hc1)
    have e2 := log_return_sget (g := ext.logQ) ht (by omega) hc1 hct
    have e3 := ma_col_fin (w := 7) ht (by omega) (by omega)
    have e4 := ma_col_fin (w := 30) ht (by omega) (by omega)
    have e5 := ma_col_fin (w := 50) ht (by omega) (by omega)
    have e6 := ma_col_fin (w := 20) ht (by omega) (by omega)
    have e7 := volume_ma_sget ht (by omega)
    have e8 := volume_ratio_sget ht (by omega) (ne_of_gt (volWinSum_pos ht (by omega) hvol))
    have e9 := bb_std_sget (s := ext.sqrtQ) ht (by omega)
    have e10 := bb_upper_sget (s := ext.sqrtQ) ht (by omega)
    have e11 := bb_lower_sget (s := ext.sqrtQ) ht (by omega)
    have e12 := target_sget hlast
    have e13 : ∃ q, sget (rsi_col bars) t = .fin q := by
      rcases eq_or_lt_of_le (lossSum_nonneg bars t) with hL | hL
      · have hG : gainSum bars t ≠ 0 := hrsi t h49 hlast hL.symm
        have hGpos : 0 < gainSum bars t := lt_of_le_of_ne (gainSum_nonneg bars t) (Ne.symm hG)
        exact ⟨100, rsi_col_loss_zero_gain_pos (by omega) ht hL.symm hGpos⟩
      · exact ⟨_, rsi_col_pos_loss (by omega) ht hL⟩
    obtain ⟨q13, e13⟩ := e13
    simp [FeatRow.hasNan, rowAt, e1, e2, e3, e4, e5, e6, e7, e8, e9, e10, e11, e12, e13, isNan]

theorem filter_range_band (n a b : ℕ) :
    ((List.range n).filter (fun t => decide (a ≤ t) && decide (t < b))).length
      = min b n - a := by
  induction n with
  | zero => simp
  | succ n ih =>
      rw [List.range_succ, List.filter_append, List.length_append, ih]
      have hsing : (List.filter (fun t => decide (a ≤ t) && decide (t < b)) [n]).length
          = if a ≤ n ∧ n < b then 1 else 0 := by
        by_cases h1 : a ≤ n <;> by_cases h2 : n < b <;> simp [List.filter, h1, h2]
      rw [hsing]
      by_cases h1 : a ≤ n <;> by_cases h2 : n < b <;> simp only [h1, h2, and_self,
        and_true, and_false, true_and, false_and, if_true, if_false] <;> omega

/-- Under the hypotheses of `rowAt_hasNan_iff`, the assembled frame is
exactly the rows 49 .. n-2, in order. -/
theorem calculate_technical_features_eq {ext : Ext} {bars : List Bar}
    (hclose : ∀ i, i < bars.length → 0 < closeQ bars i)
    (hvol : ∀ i, i < bars.length → 0 < volQ bars i)
    (hrsi : ∀ i, 49 ≤ i → i + 1 < bars.length → lossSum bars i = 0 → gainSum bars i ≠ 0) :
    calculate_technical_features ext bars
      = ((List.range bars.length).filter
          (fun t => decide (49 ≤ t) && decide (t + 1 < bars.length))).map (rowAt ext bars) := by
  rw [calculate_technical_features, List.filter_map]
  congr 1
  apply List.filter_congr
  intro t htmem
  have ht : t < bars.length := List.mem_range.mp htmem
  have hiff := @rowAt_hasNan_iff ext bars t ht hclose hvol hrsi
  by_cases hb : 49 ≤ t ∧ t + 1 < bars.length
  · have hN : (rowAt ext bars t).hasNan = false := hiff.mpr hb
    simp [Function.comp, hN, hb.1, hb.2]
  · have h2 : (rowAt ext bars t).hasNan = true := by
      cases hEq : (rowAt ext bars t).hasNan
      · exact absurd (hiff.mp hEq) hb
      · rfl
    rw [not_and_or] at hb
    rcases hb with hb | hb
    · simp [Function.comp, h2, hb]
    · simp [Function.comp, h2, hb]

theorem calculate_technical_features_length {ext : Ext} {bars : List Bar}
    (hclose : ∀ i, i < bars.length → 0 < closeQ bars i)
    (hvol : ∀ i, i < bars.length → 0 < volQ bars i)
    (hrsi : ∀ i, 49 ≤ i → i + 1 < bars.length → lossSum bars i = 0 → gainSum bars i ≠ 0) :
    (calculate_technical_features ext bars).length = bars.length - 50 := by
  rw [calculate_technical_features_eq hclose hvol hrsi, List.length_map]
  rw [List.filter_congr (q := fun t => decide (49 ≤ t) && decide (t < bars.length - 1))
    (by
      intro t _
      congr 1
      exact decide_eq_decide.mpr (by omega))]
  rw [filter_range_band]
  omega

/-- Unconditionally: `dropna` never lets a NaN cell through. -/
theorem calculate_technical_features_no_nan (ext : Ext) (bars : List Bar) :
    ∀ r ∈ calculate_technical_features ext bars, r.hasNan = false := by
  intro r hr
  rw [calculate_technical_features] at hr
  have := List.of_mem_filter hr
  simpa using this

/-- Unconditionally: fewer than 51 bars leave zero usable rows (every row
lacks either a full ma_50 window or a next-bar target). -/
theorem calculate_technical_features_nil {ext : Ext} {bars : List Bar}
    (h : bars.length ≤ 50) :
    calculate_technical_features ext bars = [] := by
  rw [calculate_technical_features, List.filter_eq_nil_iff]
  intro r hr
  obtain ⟨t, htmem, rfl⟩ := List.mem_map.mp hr
  have ht : t < bars.length := List.mem_range.mp htmem
  by_cases h49 : 49 ≤ t
  · have htg : sget (target_col bars) t = .nan := target_nan ht (by omega)
    simp [FeatRow.hasNan, rowAt, htg, isNan]
  · have hma : sget (ma_col 50 bars) t = .nan := ma_col_nan ht (by omega)
    simp [FeatRow.hasNan, rowAt, hma, isNan]

/-! ### Window non-degeneracy -/

theorem window_not_all_zero {bars : List Bar} {t : ℕ} (h14 : 14 ≤ t)
    (hne : ∃ i, t - 13 ≤ i ∧ i ≤ t ∧ deltaQ bars i ≠ 0) :
    ¬(lossSum bars t = 0 ∧ gainSum bars t = 0) := by
  rintro ⟨hL, hG⟩
  obtain ⟨i, hi1, hi2, hid⟩ := hne
  have himem : i ∈ List.range' (t - 13) 14 := List.mem_range'_1.mpr ⟨hi1, by omega⟩
  have hGmem : gainQ bars i ∈ (List.range' (t - 13) 14).map (gainQ bars) :=
    List.mem_map.mpr ⟨i, himem, rfl⟩
  have hLmem : lossQ bars i ∈ (List.range' (t - 13) 14).map (lossQ bars) :=
    List.mem_map.mpr ⟨i, himem, rfl⟩
  have hGnn : ∀ x ∈ (List.range' (t - 13) 14).map (gainQ bars), (0:ℚ) ≤ x := by
    rintro x hx
    obtain ⟨j, _, rfl⟩ := List.mem_map.mp hx
    exact gainQ_nonneg bars j
  have hLnn : ∀ x ∈ (List.range' (t - 13) 14).map (lossQ bars), (0:ℚ) ≤ x := by
    rintro x hx
    obtain ⟨j, _, rfl⟩ := List.mem_map.mp hx
    exact lossQ_nonneg bars j
  have hG0 : gainQ bars i = 0 := list_sum_eq_zero_all hGnn hG _ hGmem
  have hL0 : lossQ bars i = 0 := list_sum_eq_zero_all hLnn hL _ hLmem
  have hi0 : ¬ i = 0 := by omega
  rw [gainQ, if_neg hi0] at hG0
  rw [lossQ, if_neg hi0] at hL0
  have h1 : deltaQ bars i ≤ 0 := by
    have hle := le_max_left (deltaQ bars i) (0:ℚ)
    rw [hG0] at hle
    exact hle
  have h2 : 0 ≤ deltaQ bars i := by
    have hle := le_max_left (-(deltaQ bars i)) (0:ℚ)
    rw [hL0] at hle
    linarith
  exact hid (le_antisymm h1 h2)

theorem lossSum_eq_zero_of_nonneg {bars : List Bar} {t : ℕ} (h14 : 14 ≤ t)
    (hall : ∀ i, t - 13 ≤ i → i ≤ t → 0 ≤ deltaQ bars i) : lossSum bars t = 0 := by
  rw [lossSum]
  apply List.sum_eq_zero
  rintro x hx
  obtain ⟨i, hi, rfl⟩ := List.mem_map.mp hx
  have hm := List.mem_range'_1.mp hi
  rw [lossQ, if_neg (by omega : ¬ i = 0),
    max_eq_right (by linarith [hall i (by omega) (by omega)])]

/-! ## Claim C2 -/

/-- C2: for every price series and every bar where the RSI(14) window is
fully populated (14 ≤ t < n) and non-degenerate (some delta in the window
is nonzero), the RSI computed by `calculate_rsi` is a finite value in
[0, 100]; when moreover all deltas in the window are non-negative (so the
average loss is zero), the IEEE semantics of the pandas division make
`rs = +inf` and RSI saturates at exactly 100 rather than being undefined. -/
theorem c2_rsi_bounded (bars : List Bar) (t : ℕ) (h14 : 14 ≤ t) (ht : t < bars.length)
    (hne : ∃ i, t - 13 ≤ i ∧ i ≤ t ∧ deltaQ bars i ≠ 0) :
    (∃ q, sget (rsi_col bars) t = .fin q ∧ 0 ≤ q ∧ q ≤ 100) ∧
    ((∀ i, t - 13 ≤ i → i ≤ t → 0 ≤ deltaQ bars i) →
      sget (rsi_col bars) t = .fin 100) := by
  have hnotall := window_not_all_zero h14 hne
  constructor
  · rcases eq_or_lt_of_le (lossSum_nonneg bars t) with hL | hL
    · have hG : gainSum bars t ≠ 0 := fun hG0 => hnotall ⟨hL.symm, hG0⟩
      have hGpos := lt_of_le_of_ne (gainSum_nonneg bars t) (Ne.symm hG)
      exact ⟨100, rsi_col_loss_zero_gain_pos h14 ht hL.symm hGpos, by norm_num, by norm_num⟩
    · refine ⟨_, rsi_col_pos_loss h14 ht hL, ?_, ?_⟩
      · have hr : 0 ≤ gainSum bars t / lossSum bars t :=
          div_nonneg (gainSum_nonneg bars t) (le_of_lt hL)
        have hb : 100 / (1 + gainSum bars t / lossSum bars t) ≤ 100 := by
          rw [div_le_iff₀ (by linarith)]
          nlinarith
        linarith
      · have hr : 0 ≤ gainSum bars t / lossSum bars t :=
          div_nonneg (gainSum_nonneg bars t) (le_of_lt hL)
        have hb : 0 < 100 / (1 + gainSum bars t / lossSum bars t) := by positivity
        linarith
  · intro hall
    have hL0 : lossSum bars t = 0 := lossSum_eq_zero_of_nonneg h14 hall
    have hG : gainSum bars t ≠ 0 := fun hG0 => hnotall ⟨hL0, hG0⟩
    exact rsi_col_loss_zero_gain_pos h14 ht hL0
      (lt_of_le_of_ne (gainSum_nonneg bars t) (Ne.symm hG))

theorem getD_range_map {α : Type} {f : ℕ → α} {n t : ℕ} (h : t < n) (d : α) :
    ((List.range n).map f).getD t d = f t := by
  simp [List.getD_eq_getElem?_getD, List.getElem?_map, List.getElem?_range, h]

/-- Strictly rising bars used for the C2 witness: close(i) = i + 1. -/
def c2bars : List Bar :=
  (List.range 15).map (fun i : ℕ =>
    { ts := (i:ℚ), open_ := (i:ℚ) + 1, high := (i:ℚ) + 1, low := (i:ℚ) + 1,
      close := (i:ℚ) + 1, volume := 1 })

theorem c2bars_delta {i : ℕ} (h1 : 1 ≤ i) (h2 : i ≤ 14) : deltaQ c2bars i = 1 := by
  unfold deltaQ closeQ c2bars
  rw [getD_range_map (by omega), getD_range_map (by omega)]
  simp only
  rw [Nat.cast_sub h1]
  ring

/-- Witness for C2 at a concrete strictly-rising series at t = 14. -/
theorem c2_rsi_bounded_witness :
    (∃ q, sget (rsi_col c2bars) 14 = .fin q ∧ 0 ≤ q ∧ q ≤ 100) ∧
    ((∀ i, 14 - 13 ≤ i → i ≤ 14 → 0 ≤ deltaQ c2bars i) →
      sget (rsi_col c2bars) 14 = .fin 100) :=
  c2_rsi_bounded c2bars 14 (by norm_num) (by norm_num [c2bars])
    ⟨14, by norm_num, by norm_num, by rw [c2bars_delta (by norm_num) (by norm_num)]; norm_num⟩

/-! ## Claim C4 -/

/-- C4 (amended): for every input bar sequence of length n ≥ 51
(max lookback 50, plus one for the target) whose closes and volumes are
positive and whose candidate rows have a non-degenerate RSI window,
`calculate_technical_features` emits exactly n - (50 - 1) - 1 rows and no
emitted row contains a NaN field.  (The degeneracy condition is forced by
the counterexample: an all-zero delta window makes the RSI cell NaN
(0/0), so that row is dropped as well and the count falls short.) -/
theorem c4_row_count_amended (ext : Ext) (bars : List Bar)
    (hlen : 51 ≤ bars.length)
    (hclose : ∀ i, i < bars.length → 0 < closeQ bars i)
    (hvol : ∀ i, i < bars.length → 0 < volQ bars i)
    (hrsi : ∀ t, 49 ≤ t → t + 1 < bars.length →
      ∃ i, t - 13 ≤ i ∧ i ≤ t ∧ deltaQ bars i ≠ 0) :
    (calculate_technical_features ext bars).length = bars.length - (50 - 1) - 1 ∧
    ∀ r ∈ calculate_technical_features ext bars, r.hasNan = false := by
  have hrsi' : ∀ i, 49 ≤ i → i + 1 < bars.length →
      lossSum bars i = 0 → gainSum bars i ≠ 0 := by
    intro i h49 hi hL hG
    exact window_not_all_zero (by omega) (hrsi i h49 hi) ⟨hL, hG⟩
  refine ⟨?_, calculate_technical_features_no_nan ext bars⟩
  rw [calculate_technical_features_length hclose hvol hrsi']
  omega

/-- A concrete external environment for the closed instances (the claims
hold for every environment; the witnesses fix one). -/
def extDefault : Ext :=
  { logQ := fun _ => 0
    sqrtQ := fun _ => 0
    fitRF := fun _ _ => { predictRow := fun _ => .fin 0, feature_importances_ := [] }
    now := "20250101_000000" }

/-- No externally injected stage failures. -/
def orcNone : Oracles :=
  { trainRaises := false, saveModelRaises := false
    saveScalerRaises := false, saveMetricsRaises := false }

/-- Strictly rising 51-bar series for the C4 witness. -/
def c4rising : List Bar :=
  (List.range 51).map (fun i : ℕ =>
    { ts := (i:ℚ), open_ := (i:ℚ) + 1, high := (i:ℚ) + 1, low := (i:ℚ) + 1,
      close := (i:ℚ) + 1, volume := 1 })

theorem c4rising_close {i : ℕ} (h : i < 51) : closeQ c4rising i = (i:ℚ) + 1 := by
  unfold closeQ c4rising
  rw [getD_range_map h]

theorem c4rising_vol {i : ℕ} (h : i < 51) : volQ c4rising i = 1 := by
  unfold volQ c4rising
  rw [getD_range_map h]

theorem c4rising_delta {i : ℕ} (h1 : 1 ≤ i) (h2 : i < 51) : deltaQ c4rising i = 1 := by
  unfold deltaQ
  rw [c4rising_close h2, c4rising_close (by omega), Nat.cast_sub h1]
  ring

/-- Witness for C4 (amended) on the concrete rising series. -/
theorem c4_row_count_amended_witness :
    (calculate_technical_features extDefault c4rising).length
      = c4rising.length - (50 - 1) - 1 ∧
    ∀ r ∈ calculate_technical_features extDefault c4rising, r.hasNan = false :=
  c4_row_count_amended extDefault c4rising
    (by norm_num [c4rising])
    (by
      intro i hi
      have : i < 51 := by simpa [c4rising] using hi
      rw [c4rising_close this]
      positivity)
    (by
      intro i hi
      have : i < 51 := by simpa [c4rising] using hi
      rw [c4rising_vol this]
      norm_num)
    (by
      intro t h49 hlast
      have ht : t + 1 < 51 := by simpa [c4rising] using hlast
      exact ⟨t, by omega, le_refl t,
        by rw [c4rising_delta (by omega) (by omega)]; norm_num⟩)

/-- Constant-close 51-bar series: the C4 counterexample input. -/
def c4const : List Bar :=
  (List.range 51).map (fun i : ℕ =>
    { ts := (i:ℚ), open_ := 5, high := 5, low := 5, close := 5, volume := 1 })

theorem c4const_close {i : ℕ} (h : i < 51) : closeQ c4const i = 5 := by
  unfold closeQ c4const
  rw [getD_range_map h]

theorem c4const_delta {i : ℕ} (h1 : 1 ≤ i) (h2 : i < 51) : deltaQ c4const i = 0 := by
  unfold deltaQ
  rw [c4const_close h2, c4const_close (by omega)]
  ring

theorem c4const_features_nil : calculate_technical_features extDefault c4const = [] := by
  rw [calculate_technical_features, List.filter_eq_nil_iff]
  intro r hr
  obtain ⟨t, htmem, rfl⟩ := List.mem_map.mp hr
  have ht : t < c4const.length := List.mem_range.mp htmem
  have hlen : c4const.length = 51 := by simp [c4const]
  by_cases h49 : 49 ≤ t
  · by_cases hlast : t + 1 < c4const.length
    · have ht49 : t = 49 := by omega
      subst ht49
      have hG : gainSum c4const 49 = 0 := by
        rw [gainSum]
        apply List.sum_eq_zero
        rintro x hx
        obtain ⟨i, hi, rfl⟩ := List.mem_map.mp hx
        have hm := List.mem_range'_1.mp hi
        rw [gainQ, if_neg (by omega : ¬ i = 0), c4const_delta (by omega) (by omega)]
        norm_num
      have hL : lossSum c4const 49 = 0 := by
        rw [lossSum]
        apply List.sum_eq_zero
        rintro x hx
        obtain ⟨i, hi, rfl⟩ := List.mem_map.mp hx
        have hm := List.mem_range'_1.mp hi
        rw [lossQ, if_neg (by omega : ¬ i = 0), c4const_delta (by omega) (by omega)]
        norm_num
      have hrsi := rsi_col_all_zero (by norm_num) ht hL hG
      simp [FeatRow.hasNan, rowAt, hrsi, isNan]
    · have htg := target_nan ht hlast
      simp [FeatRow.hasNan, rowAt, htg, isNan]
  · have hma := ma_col_nan (w := 50) ht (by omega)
    simp [FeatRow.hasNan, rowAt, hma, isNan]

/-- Counterexample to C4 as stated: 51 constant-close bars (a valid
PriceBar sequence of length max-lookback + 1) yield 0 assembled rows, not
51 - (50 - 1) - 1 = 1: the all-zero RSI windows produce NaN (0/0) and
dropna removes every candidate row. -/
theorem c4_counterexample :
    51 ≤ c4const.length ∧
    (calculate_technical_features extDefault c4const).length
      ≠ c4const.length - (50 - 1) - 1 := by
  constructor
  · simp [c4const]
  · rw [c4const_features_nil]
    simp [c4const]

/-! ## Claim C5 -/

/-- C5: the fitted scaler statistics of `train_new_model` are a function
of the train partition alone — two datasets of the same size and equal
train prefixes yield the same fitted scaler whatever their test rows —
and the scaled test matrix is, by the very dataflow of the code, the test
rows transformed with the train-fitted statistics (never refit). -/
theorem c5_scaler_train_only (ext : Ext) (X X' : List FeatRow)
    (_hlen : X.length = X'.length) (htr : trainPart X = trainPart X') :
    fittedScaler X = fittedScaler X' ∧
    testScaled ext X
      = ((testPart X).map featureVector).map (scalerTransform ext (fittedScaler X)) ∧
    (∀ features r r', train_new_model ext X features = .ok r →
      train_new_model ext X' features = .ok r' → r.scaler = r'.scaler) := by
  have h1 : fittedScaler X = fittedScaler X' := by
    rw [fittedScaler, fittedScaler, htr]
  refine ⟨h1, rfl, ?_⟩
  intro features r r' h h'
  have hr : r.scaler = fittedScaler X := by
    cases hE : (trainPart X).isEmpty with
    | true => simp [train_new_model, hE] at h
    | false =>
        simp only [train_new_model, hE, Bool.false_eq_true, if_false,
          Except.ok.injEq] at h
        rw [← h]
  have hr' : r'.scaler = fittedScaler X' := by
    cases hE : (trainPart X').isEmpty with
    | true => simp [train_new_model, hE] at h'
    | false =>
        simp only [train_new_model, hE, Bool.false_eq_true, if_false,
          Except.ok.injEq] at h'
        rw [← h']
  rw [hr, hr', h1]

/-- A fully finite feature row used by the closed instances. -/
def frow (target : ℚ) : FeatRow :=
  { ts := 0, open_ := .fin 1, high := .fin 1, low := .fin 1, close := .fin 1,
    volume := .fin 1, price_change := .fin 0, log_return := .fin 0,
    ma_7 := .fin 1, ma_30 := .fin 1, ma_50 := .fin 1, volume_ma := .fin 1,
    volume_ratio := .fin 1, rsi := .fin 50, bb_middle := .fin 1,
    bb_std := .fin 0, bb_upper := .fin 1, bb_lower := .fin 1,
    target := .fin target }

/-- Witness for C5: two 2-row datasets sharing the train row but with
different test rows. -/
theorem c5_scaler_train_only_witness :
    fittedScaler [frow 2, frow 3] = fittedScaler [frow 2, frow 7] ∧
    testScaled extDefault [frow 2, frow 3]
      = ((testPart [frow 2, frow 3]).map featureVector).map
          (scalerTransform extDefault (fittedScaler [frow 2, frow 3])) ∧
    (∀ features r r', train_new_model extDefault [frow 2, frow 3] features = .ok r →
      train_new_model extDefault [frow 2, frow 7] features = .ok r' →
      r.scaler = r'.scaler) :=
  c5_scaler_train_only extDefault [frow 2, frow 3] [frow 2, frow 7] rfl rfl

/-! ## Claim C6 -/

/-- C6: without `--force` the run proceeds to loading (and hence to
training) exactly when the accumulated feedback count is at least 10;
with `--force` it always proceeds. -/
theorem c6_trigger (ext : Ext) (orc : Oracles) (st : SysState) :
    ((.loadAttempted ∈ (main ext orc false st).trace) ↔ 10 ≤ feedbackCount st) ∧
    (.loadAttempted ∈ (main ext orc true st).trace) := by
  constructor
  · simp only [main]
    split
    · rename_i hcond
      simp
      omega
    · rename_i hcond
      simp at hcond ⊢
      omega
  · simp only [main]
    split
    · rename_i hcond
      simp at hcond
    · simp

/-! ## Claim C7 -/

/-- State with the primary historical CSV missing and a deployed model. -/
def c7state : SysState :=
  { histData := none
    feedbackFiles := []
    currentModel := some (.file "model-v1.pkl")
    currentScaler := some (.file "scaler-v1.pkl")
    currentMetrics := some (.file "metrics-v1.json")
    backups := []
    logEntries := []
    archivedFeedback := [] }

/-- C7 (code evidence): with the historical source missing the run stops
before any mutation — the state (artifacts, backups, log, feedback) is
unchanged and only a diagnostic is printed — but `main` returns normally
from the `result is None` branch, so the process exit status is 0, not
the non-zero status the specification requires. -/
theorem c7_missing_data_exits_zero :
    main extDefault orcNone true c7state
      = { exit := 0, state := c7state,
          trace := [.loadAttempted, .printedDiagnostic],
          err := some .dataUnavailable } := rfl

/-! ### Orchestration helper lemmas -/

theorem backup_fields (ext : Ext) (st : SysState) :
    (backup_current_model ext st).1.logEntries = st.logEntries ∧
    (backup_current_model ext st).1.archivedFeedback = st.archivedFeedback ∧
    (backup_current_model ext st).1.feedbackFiles = st.feedbackFiles ∧
    (backup_current_model ext st).1.histData = st.histData := by
  cases hm : st.currentModel <;> simp [backup_current_model, hm]

theorem backup_mem {e : Ext} {st : SysState} {m : Blob} (hm : st.currentModel = some m) :
    ("model_backup_" ++ e.now ++ ".pkl", m) ∈ (backup_current_model e st).1.backups ∧
    (backup_current_model e st).2 = true := by
  simp [backup_current_model, hm]

theorem main_eq_pipeline (ext : Ext) (orc : Oracles) (st : SysState) (force : Bool)
    (h : ¬(force = false ∧ feedbackCount st < 10)) :
    main ext orc force st
      = { runPipeline ext orc st (feedbackCount st) with
          trace := .loadAttempted :: (runPipeline ext orc st (feedbackCount st)).trace } := by
  simp only [main, if_neg h]

theorem runPipeline_train_error (ext : Ext) (orc : Oracles) (st : SysState) (fc : ℕ)
    (X : List FeatRow) (features : List String) (e : TrainError)
    (hload : load_training_data ext st = some (X, features))
    (htr : train_new_model ext X features = .error e) :
    runPipeline ext orc st fc
      = { exit := 1, state := (backup_current_model ext st).1,
          trace := (if (backup_current_model ext st).2 then [.backedUp] else [])
            ++ [.trainFailed],
          err := some (.train e) } := by
  simp only [runPipeline, hload, htr]

/-- Every run that terminates with exit status 1 appends no log entry,
archives no feedback, writes no metrics document, and — when a model was
deployed — has already moved it into the backup directory, the backup
being the first action after the load. -/
theorem runPipeline_fail_invariants (ext : Ext) (orc : Oracles) (st : SysState) (fc : ℕ)
    (hfail : (runPipeline ext orc st fc).exit = 1) :
    (runPipeline ext orc st fc).state.logEntries = st.logEntries ∧
    (runPipeline ext orc st fc).state.archivedFeedback = st.archivedFeedback ∧
    Action.loggedEntry ∉ (runPipeline ext orc st fc).trace ∧
    Action.savedMetrics ∉ (runPipeline ext orc st fc).trace ∧
    ∀ m, st.currentModel = some m →
      ("model_backup_" ++ ext.now ++ ".pkl", m) ∈ (runPipeline ext orc st fc).state.backups ∧
      ∃ tail, (runPipeline ext orc st fc).trace = .backedUp :: tail := by
  obtain ⟨hb1, hb2, _, _⟩ := backup_fields ext st
  cases hload : load_training_data ext st with
  | none => simp [runPipeline, hload] at hfail
  | some p =>
      obtain ⟨X, features⟩ := p
      cases htr : train_new_model ext X features with
      | error e =>
          simp only [runPipeline, hload, htr]
          refine ⟨hb1, hb2, ?_, ?_, ?_⟩
          · cases hb : (backup_current_model ext st).2 <;> simp [hb]
          · cases hb : (backup_current_model ext st).2 <;> simp [hb]
          · intro m hm
            refine ⟨(backup_mem hm).1, ?_⟩
            rw [(backup_mem (e := ext) hm).2]
            exact ⟨[.trainFailed], rfl⟩
      | ok res =>
          by_cases h1 : orc.trainRaises = true
          · simp only [runPipeline, hload, htr, h1, if_true]
            refine ⟨hb1, hb2, ?_, ?_, ?_⟩
            · cases hb : (backup_current_model ext st).2 <;> simp [hb]
            · cases hb : (backup_current_model ext st).2 <;> simp [hb]
            · intro m hm
              refine ⟨(backup_mem hm).1, ?_⟩
              rw [(backup_mem (e := ext) hm).2]
              exact ⟨[.trainFailed], rfl⟩
          · by_cases h2 : orc.saveModelRaises = true
            · simp only [runPipeline, hload, htr, h1, h2, Bool.false_eq_true, if_false, if_true]
              refine ⟨hb1, hb2, ?_, ?_, ?_⟩
              · cases hb : (backup_current_model ext st).2 <;> simp [hb]
              · cases hb : (backup_current_model ext st).2 <;> simp [hb]
              · intro m hm
                refine ⟨(backup_mem hm).1, ?_⟩
                rw [(backup_mem (e := ext) hm).2]
                exact ⟨[.trainedOk], rfl⟩
            · by_cases h3 : orc.saveScalerRaises = true
              · simp only [runPipeline, hload, htr, h1, h2, h3, Bool.false_eq_true,
                  if_false, if_true]
                refine ⟨hb1, hb2, ?_, ?_, ?_⟩
                · cases hb : (backup_current_model ext st).2 <;> simp [hb]
                · cases hb : (backup_current_model ext st).2 <;> simp [hb]
                · intro m hm
                  refine ⟨(backup_mem hm).1, ?_⟩
                  rw [(backup_mem (e := ext) hm).2]
                  exact ⟨[.trainedOk, .savedModel], rfl⟩
              · by_cases h4 : orc.saveMetricsRaises = true
                · simp only [runPipeline, hload, htr, h1, h2, h3, h4, Bool.false_eq_true,
                    if_false, if_true]
                  refine ⟨hb1, hb2, ?_, ?_, ?_⟩
                  · cases hb : (backup_current_model ext st).2 <;> simp [hb]
                  · cases hb : (backup_current_model ext st).2 <;> simp [hb]
                  · intro m hm
                    refine ⟨(backup_mem hm).1, ?_⟩
                    rw [(backup_mem (e := ext) hm).2]
                    exact ⟨[.trainedOk, .savedModel, .savedScaler], rfl⟩
                · exfalso
                  by_cases h5 : 0 < fc <;>
                    simp [runPipeline, hload, htr, h1, h2, h3, h4, h5] at hfail

theorem main_early_return (ext : Ext) (orc : Oracles) (force : Bool) (st : SysState)
    (h : force = false ∧ feedbackCount st < 10) :
    main ext orc force st = { exit := 0, state := st, trace := [], err := none } := by
  simp only [main, if_pos h]

/-! ## Claim C3 -/

/-- C3 (amended): every run that fails (exit status 1, i.e. any exception
after the load) appends no log entry, archives no feedback, writes no
metrics document, and — when a model was deployed — had moved it into the
timestamped backup location before any overwrite (backup is the first
action after the load).  The prior artifact is preserved in the backups,
but it is *not* left active: the rename-based backup empties the active
slot, which is what the counterexample exhibits. -/
theorem c3_failed_run_amended (ext : Ext) (orc : Oracles) (force : Bool) (st : SysState)
    (hfail : (main ext orc force st).exit = 1) :
    (main ext orc force st).state.logEntries = st.logEntries ∧
    (main ext orc force st).state.archivedFeedback = st.archivedFeedback ∧
    Action.loggedEntry ∉ (main ext orc force st).trace ∧
    Action.savedMetrics ∉ (main ext orc force st).trace ∧
    ∀ m, st.currentModel = some m →
      ("model_backup_" ++ ext.now ++ ".pkl", m) ∈ (main ext orc force st).state.backups ∧
      ∃ tail, (main ext orc force st).trace = .loadAttempted :: .backedUp :: tail := by
  by_cases hcond : force = false ∧ feedbackCount st < 10
  · rw [main_early_return ext orc force st hcond] at hfail
    simp at hfail
  · have hm := main_eq_pipeline ext orc st force hcond
    rw [hm] at hfail
    have hpf : (runPipeline ext orc st (feedbackCount st)).exit = 1 := hfail
    obtain ⟨h1, h2, h3, h4, h5⟩ := runPipeline_fail_invariants ext orc st (feedbackCount st) hpf
    rw [hm]
    refine ⟨h1, h2, ?_, ?_, ?_⟩
    · simp only [List.mem_cons]
      rintro (hc | hc)
      · exact absurd hc (by simp)
      · exact h3 hc
    · simp only [List.mem_cons]
      rintro (hc | hc)
      · exact absurd hc (by simp)
      · exact h4 hc
    · intro m hmm
      obtain ⟨hmem, tail, htail⟩ := h5 m hmm
      exact ⟨hmem, tail, by rw [show ({ runPipeline ext orc st (feedbackCount st) with
        trace := .loadAttempted :: (runPipeline ext orc st (feedbackCount st)).trace } :
          RunResult).trace = .loadAttempted :: (runPipeline ext orc st (feedbackCount st)).trace
        from rfl, htail]⟩

/-- Six flat bars: too few for any usable row, so training raises. -/
def c3bars : List Bar :=
  (List.range 6).map (fun i : ℕ =>
    { ts := (i:ℚ), open_ := 2, high := 2, low := 2, close := 2, volume := 1 })

/-- A deployed artifact set together with data that makes training fail. -/
def c3state : SysState :=
  { histData := some c3bars
    feedbackFiles := []
    currentModel := some (.file "model-v1.pkl")
    currentScaler := some (.file "scaler-v1.pkl")
    currentMetrics := some (.file "metrics-v1.json")
    backups := []
    logEntries := []
    archivedFeedback := [] }

theorem c3state_load : load_training_data extDefault c3state = some ([], feature_cols) := by
  have hnil : calculate_technical_features extDefault c3bars = [] :=
    calculate_technical_features_nil (by simp [c3bars])
  simp [load_training_data, load_feedback_data, c3state, hnil]

/-- Counterexample to C3 as stated: a run that fails during training
(exit status 1) does *not* leave the previously deployed artifact
available to serving — `backup_current_model` renamed it away before
training started, and after the failure the active model / scaler /
metrics slots are all empty. -/
theorem c3_counterexample :
    c3state.currentModel = some (.file "model-v1.pkl") ∧
    (main extDefault orcNone true c3state).exit = 1 ∧
    (main extDefault orcNone true c3state).state.currentModel = none ∧
    (main extDefault orcNone true c3state).state.currentScaler = none ∧
    (main extDefault orcNone true c3state).state.currentMetrics = none := by
  have hti : train_new_model extDefault [] feature_cols = .error .insufficientData := rfl
  have hp := runPipeline_train_error extDefault orcNone c3state (feedbackCount c3state)
    [] feature_cols .insufficientData c3state_load hti
  have hm := main_eq_pipeline extDefault orcNone c3state true (by simp)
  rw [hm, hp]
  refine ⟨rfl, rfl, ?_, ?_, ?_⟩ <;> simp [backup_current_model, c3state]

/-- Another failing-run state for the C3 witness (seven flat bars and a
differently named deployed artifact). -/
def c3wstate : SysState :=
  { histData := some ((List.range 7).map (fun i : ℕ =>
      { ts := (i:ℚ), open_ := 4, high := 4, low := 4, close := 4, volume := 1 }))
    feedbackFiles := []
    currentModel := some (.file "model-v2.pkl")
    currentScaler := none
    currentMetrics := none
    backups := []
    logEntries := []
    archivedFeedback := [] }

theorem c3wstate_load : load_training_data extDefault c3wstate = some ([], feature_cols) := by
  have hnil : calculate_technical_features extDefault
      ((List.range 7).map (fun i : ℕ =>
        { ts := (i:ℚ), open_ := 4, high := 4, low := 4, close := 4, volume := 1 })) = [] :=
    calculate_technical_features_nil (by simp)
  simp [load_training_data, load_feedback_data, c3wstate, hnil]

/-- Witness for C3 (amended) on a concrete failing run. -/
theorem c3_failed_run_amended_witness :
    (main extDefault orcNone true c3wstate).state.logEntries = c3wstate.logEntries ∧
    (main extDefault orcNone true c3wstate).state.archivedFeedback
      = c3wstate.archivedFeedback ∧
    Action.loggedEntry ∉ (main extDefault orcNone true c3wstate).trace ∧
    Action.savedMetrics ∉ (main extDefault orcNone true c3wstate).trace ∧
    ∀ m, c3wstate.currentModel = some m →
      ("model_backup_" ++ extDefault.now ++ ".pkl", m)
        ∈ (main extDefault orcNone true c3wstate).state.backups ∧
      ∃ tail, (main extDefault orcNone true c3wstate).trace
        = .loadAttempted :: .backedUp :: tail := by
  have hfail : (main extDefault orcNone true c3wstate).exit = 1 := by
    have hti : train_new_model extDefault [] feature_cols = .error .insufficientData := rfl
    rw [main_eq_pipeline extDefault orcNone c3wstate true (by simp),
      runPipeline_train_error extDefault orcNone c3wstate (feedbackCount c3wstate)
        [] feature_cols .insufficientData c3wstate_load hti]
  exact c3_failed_run_amended extDefault orcNone true c3wstate hfail

/-! ## Claim C8 -/

/-- C8: when the assembled dataset is empty or below the minimum sample
count (two rows: the positional split must leave a non-empty train
partition, and `int(1 * 0.8) = 0`), the run fails before a model is fit —
scikit-learn rejects the empty train matrix, modelled as
`insufficientData` — with exit status 1, and nothing is saved or logged. -/
theorem c8_insufficient_data (ext : Ext) (orc : Oracles) (st : SysState)
    (X : List FeatRow) (features : List String)
    (hload : load_training_data ext st = some (X, features))
    (hsmall : X.length ≤ 1) :
    (main ext orc true st).exit = 1 ∧
    (main ext orc true st).err = some (.train .insufficientData) ∧
    Action.savedModel ∉ (main ext orc true st).trace ∧
    Action.savedScaler ∉ (main ext orc true st).trace ∧
    Action.savedMetrics ∉ (main ext orc true st).trace ∧
    (main ext orc true st).state.logEntries = st.logEntries := by
  have htrain : trainPart X = [] := by
    rw [trainPart]
    have h0 : splitIdx X.length = 0 := by rw [splitIdx]; omega
    rw [h0, List.take_zero]
  have hti : train_new_model ext X features = .error .insufficientData := by
    rw [train_new_model, htrain]
    rfl
  have hm := main_eq_pipeline ext orc st true (by simp)
  have hp := runPipeline_train_error ext orc st (feedbackCount st) X features _ hload hti
  rw [hm, hp]
  obtain ⟨hb1, _, _, _⟩ := backup_fields ext st
  refine ⟨rfl, rfl, ?_, ?_, ?_, hb1⟩ <;>
    (cases hb : (backup_current_model ext st).2 <;> simp [hb])

/-- Five flat bars (fewer than the largest lookback window): zero usable
rows after assembly. -/
def c8bars : List Bar :=
  (List.range 5).map (fun i : ℕ =>
    { ts := (i:ℚ), open_ := 3, high := 3, low := 3, close := 3, volume := 2 })

def c8state : SysState :=
  { histData := some c8bars
    feedbackFiles := []
    currentModel := none
    currentScaler := none
    currentMetrics := none
    backups := []
    logEntries := []
    archivedFeedback := [] }

theorem c8state_load : load_training_data extDefault c8state = some ([], feature_cols) := by
  have hnil : calculate_technical_features extDefault c8bars = [] :=
    calculate_technical_features_nil (by simp [c8bars])
  simp [load_training_data, load_feedback_data, c8state, hnil]

/-- Witness for C8: five bars leave zero usable rows and the forced run
fails with `insufficientData` before anything is written. -/
theorem c8_insufficient_data_witness :
    (main extDefault orcNone true c8state).exit = 1 ∧
    (main extDefault orcNone true c8state).err = some (.train .insufficientData) ∧
    Action.savedModel ∉ (main extDefault orcNone true c8state).trace ∧
    Action.savedScaler ∉ (main extDefault orcNone true c8state).trace ∧
    Action.savedMetrics ∉ (main extDefault orcNone true c8state).trace ∧
    (main extDefault orcNone true c8state).state.logEntries = c8state.logEntries :=
  c8_insufficient_data extDefault orcNone c8state [] feature_cols c8state_load (by norm_num)

/-! ## Claim C10 -/

theorem filter_length_of_map_eq : ∀ {l l' : List FeedbackFile},
    l.map FeedbackFile.nameMatches = l'.map FeedbackFile.nameMatches →
    (l.filter (fun f => f.nameMatches)).length
      = (l'.filter (fun f => f.nameMatches)).length := by
  intro l
  induction l with
  | nil =>
      intro l' h
      cases l' with
      | nil => rfl
      | cons b l'' => simp at h
  | cons a l ih =>
      intro l' h
      cases l' with
      | nil => simp at h
      | cons b l'' =>
          simp only [List.map_cons, List.cons.injEq] at h
          obtain ⟨h1, h2⟩ := h
          rw [List.filter_cons, List.filter_cons, h1]
          cases hB : b.nameMatches <;> simp [hB, ih h2]

/-- In every run, the appended log entry (when the run logs at all)
carries `feedback_samples := feedbackCount st`. -/
theorem main_log_shape (ext : Ext) (orc : Oracles) (force : Bool) (st : SysState) :
    (main ext orc force st).state.logEntries = st.logEntries ∨
    ∃ ntot, (main ext orc force st).state.logEntries
      = st.logEntries ++ [mkLogEntry ext.now ntot (feedbackCount st)] := by
  obtain ⟨hb1, _, _, _⟩ := backup_fields ext st
  by_cases hcond : force = false ∧ feedbackCount st < 10
  · left
    rw [main_early_return ext orc force st hcond]
  · rw [main_eq_pipeline ext orc st force hcond]
    show (runPipeline ext orc st (feedbackCount st)).state.logEntries = st.logEntries ∨ _
    cases hload : load_training_data ext st with
    | none => left; simp [runPipeline, hload]
    | some p =>
        obtain ⟨X, features⟩ := p
        cases htr : train_new_model ext X features with
        | error e => left; simp [runPipeline, hload, htr, hb1]
        | ok res =>
            by_cases h1 : orc.trainRaises = true
            · left; simp [runPipeline, hload, htr, h1, hb1]
            · by_cases h2 : orc.saveModelRaises = true
              · left; simp [runPipeline, hload, htr, h1, h2, hb1]
              · by_cases h3 : orc.saveScalerRaises = true
                · left; simp [runPipeline, hload, htr, h1, h2, h3, hb1]
                · by_cases h4 : orc.saveMetricsRaises = true
                  · left; simp [runPipeline, hload, htr, h1, h2, h3, h4, hb1]
                  · right
                    refine ⟨X.length, ?_⟩
                    by_cases h5 : 0 < feedbackCount st <;>
                      simp [runPipeline, hload, htr, h1, h2, h3, h4, h5, hb1]

/-- C10: the quantity used by both the ≥ 10 trigger and the
`feedback_samples` log field is the number of files whose names match
`feedback_*.csv` at run start — invariant under the files' readability
and contents, i.e. counted before any file is parsed. -/
theorem c10_feedback_count (ext : Ext) (orc : Oracles) (force : Bool) (st st' : SysState)
    (hfiles : st.feedbackFiles.map FeedbackFile.nameMatches
      = st'.feedbackFiles.map FeedbackFile.nameMatches) :
    feedbackCount st = feedbackCount st' ∧
    ∀ e ∈ (main ext orc force st).state.logEntries,
      e ∈ st.logEntries ∨ e.details.feedback_samples = feedbackCount st := by
  constructor
  · exact filter_length_of_map_eq hfiles
  · intro e he
    rcases main_log_shape ext orc force st with h | ⟨ntot, h⟩
    · rw [h] at he
      exact Or.inl he
    · rw [h] at he
      rcases List.mem_append.mp he with h' | h'
      · exact Or.inl h'
      · right
        have he2 : e = mkLogEntry ext.now ntot (feedbackCount st) := by simpa using h'
        rw [he2]
        rfl

def c10state : SysState :=
  { histData := none
    feedbackFiles := [⟨true, true, []⟩, ⟨false, true, []⟩,
      ⟨true, false, [⟨0, 1, 1, 1, 1, 1⟩]⟩]
    currentModel := none
    currentScaler := none
    currentMetrics := none
    backups := []
    logEntries := []
    archivedFeedback := [] }

/-- Same name-match flags as `c10state` but different readability and
contents. -/
def c10state' : SysState :=
  { histData := none
    feedbackFiles := [⟨true, false, [⟨0, 2, 2, 2, 2, 2⟩, ⟨1, 2, 2, 2, 2, 2⟩]⟩,
      ⟨false, false, []⟩, ⟨true, true, []⟩]
    currentModel := none
    currentScaler := none
    currentMetrics := none
    backups := []
    logEntries := []
    archivedFeedback := [] }

/-- Witness for C10: the counted quantity agrees between two directories
whose file names match identically but whose contents/readability differ. -/
theorem c10_feedback_count_witness :
    feedbackCount c10state = feedbackCount c10state' ∧
    ∀ e ∈ (main extDefault orcNone false c10state).state.logEntries,
      e ∈ c10state.logEntries ∨ e.details.feedback_samples = feedbackCount c10state :=
  c10_feedback_count extDefault orcNone false c10state c10state' rfl

/-! ## Claim C9 -/

/-- The metrics dict of a training result (empty on failure). -/
def metricsOfResult : Except TrainError TrainResult → List (String × MetricEntry)
  | .ok r => r.metrics
  | .error _ => []

def exceptIsOk : Except TrainError TrainResult → Bool
  | .ok _ => true
  | .error _ => false

/-- C9 (amended): every successful save writes a metrics document with
the name, version "2.0", a retrain timestamp, the ordered feature list,
train/test metric blocks and feature importances, the hyperparameters,
and a training_stats object whose features_count is the length of the
feature list — but whose samples_total and samples_new are the constant
0: the dict produced by `train_new_model` has no such keys, so
`metrics.get('samples_total', 0)` always takes the default. -/
theorem c9_metrics_document (ext : Ext) (X : List FeatRow) (features : List String)
    (res : TrainResult) (h : train_new_model ext X features = .ok res) :
    (save_model_info ext res.metrics features).name = "Random Forest Solana Predictor" ∧
    (save_model_info ext res.metrics features).version = "2.0" ∧
    (save_model_info ext res.metrics features).retrained_date = ext.now ∧
    (save_model_info ext res.metrics features).features = features ∧
    (res.metrics.lookup "train").isSome = true ∧
    (res.metrics.lookup "test").isSome = true ∧
    (res.metrics.lookup "feature_importance").isSome = true ∧
    (save_model_info ext res.metrics features).hyperparameters
      = [("n_estimators", 150), ("max_depth", 20), ("min_samples_split", 5),
         ("min_samples_leaf", 2)] ∧
    (save_model_info ext res.metrics features).training_stats.features_count
      = features.length ∧
    (save_model_info ext res.metrics features).training_stats.samples_total
      = .num (.fin 0) ∧
    (save_model_info ext res.metrics features).training_stats.samples_new
      = .num (.fin 0) := by
  cases hE : (trainPart X).isEmpty with
  | true => simp [train_new_model, hE] at h
  | false =>
      simp only [train_new_model, hE, Bool.false_eq_true, if_false, Except.ok.injEq] at h
      subst h
      refine ⟨rfl, rfl, rfl, rfl, ?_, ?_, ?_, rfl, rfl, ?_, ?_⟩ <;>
        simp [save_model_info, List.lookup]

def c9X : List FeatRow := [frow 4, frow 5]

/-- Counterexample to C9 as stated: a successful run over 2 samples saves
`training_stats.samples_total = 0`, which does not record the actual
sample count 2. -/
theorem c9_counterexample :
    c9X.length = 2 ∧
    exceptIsOk (train_new_model extDefault c9X feature_cols) = true ∧
    (save_model_info extDefault
        (metricsOfResult (train_new_model extDefault c9X feature_cols))
        feature_cols).training_stats.samples_total = .num (.fin 0) ∧
    MetricEntry.num (.fin 0) ≠ MetricEntry.num (.fin 2) := by
  refine ⟨rfl, rfl, by simp [save_model_info, metricsOfResult, train_new_model, List.lookup], ?_⟩
  intro hEq
  simp at hEq

/-- Witness for C9 (amended) on a concrete successful training run. -/
theorem c9_metrics_document_witness :
    ∃ res, train_new_model extDefault c9X feature_cols = .ok res ∧
      (save_model_info extDefault res.metrics feature_cols).training_stats.samples_total
        = .num (.fin 0) ∧
      (save_model_info extDefault res.metrics feature_cols).training_stats.features_count
        = feature_cols.length := by
  cases hres : train_new_model extDefault c9X feature_cols with
  | error e =>
      exfalso
      have hE : (trainPart c9X).isEmpty = false := rfl
      simp [train_new_model, hE] at hres
  | ok res =>
      obtain ⟨_, _, _, _, _, _, _, _, h9, h10, _⟩ :=
        c9_metrics_document extDefault c9X feature_cols res hres
      exact ⟨res, rfl, h10, h9⟩

/-! ## Claim C1 -/

/-- 51 historical bars, strictly rising closes, timestamps 10, 20, …, 510. -/
def c1hist : List Bar :=
  (List.range 51).map (fun i : ℕ =>
    { ts := 10 * ((i:ℚ) + 1), open_ := (i:ℚ) + 1, high := (i:ℚ) + 1,
      low := (i:ℚ) + 1, close := (i:ℚ) + 1, volume := 1 })

/-- Two feedback rows whose timestamps (15, 16) predate almost all of the
history; `load_training_data` appends them *after* the history without
re-sorting. -/
def c1fb : List Bar :=
  [{ ts := 15, open_ := 52, high := 52, low := 52, close := 52, volume := 1 },
   { ts := 16, open_ := 53, high := 53, low := 53, close := 53, volume := 1 }]

def c1merged : List Bar := c1hist ++ c1fb

def c1state : SysState :=
  { histData := some c1hist
    feedbackFiles := [{ nameMatches := true, readable := true, rows := c1fb }]
    currentModel := none
    currentScaler := none
    currentMetrics := none
    backups := []
    logEntries := []
    archivedFeedback := [] }

/-- The dataset the loader hands to the trainer on this input. -/
def c1X : List FeatRow := calculate_technical_features extDefault c1merged

theorem c1hist_length : c1hist.length = 51 := by simp [c1hist]

theorem c1merged_length : c1merged.length = 53 := by simp [c1merged, c1hist, c1fb]

theorem c1merged_close {i : ℕ} (h : i < 53) : closeQ c1merged i = (i:ℚ) + 1 := by
  unfold closeQ c1merged
  by_cases h51 : i < 51
  · rw [List.getD_append _ _ _ _ (by rw [c1hist_length]; exact h51)]
    unfold c1hist
    rw [getD_range_map h51]
  · rw [List.getD_append_right _ _ _ _ (by rw [c1hist_length]; omega), c1hist_length]
    have h2 : i = 51 ∨ i = 52 := by omega
    rcases h2 with rfl | rfl
    · norm_num [c1fb]
    · norm_num [c1fb]

theorem c1merged_vol {i : ℕ} (h : i < 53) : volQ c1merged i = 1 := by
  unfold volQ c1merged
  by_cases h51 : i < 51
  · rw [List.getD_append _ _ _ _ (by rw [c1hist_length]; exact h51)]
    unfold c1hist
    rw [getD_range_map h51]
  · rw [List.getD_append_right _ _ _ _ (by rw [c1hist_length]; omega), c1hist_length]
    have h2 : i = 51 ∨ i = 52 := by omega
    rcases h2 with rfl | rfl
    · norm_num [c1fb]
    · norm_num [c1fb]

theorem c1merged_delta {i : ℕ} (h1 : 1 ≤ i) (h2 : i < 53) : deltaQ c1merged i = 1 := by
  unfold deltaQ
  rw [c1merged_close h2, c1merged_close (by omega), Nat.cast_sub h1]
  ring

theorem c1merged_ts49 : (c1merged.getD 49 default).ts = 500 := by
  unfold c1merged
  rw [List.getD_append _ _ _ _ (by rw [c1hist_length]; omega)]
  unfold c1hist
  rw [getD_range_map (by omega : 49 < 51)]
  norm_num

theorem c1merged_ts50 : (c1merged.getD 50 default).ts = 510 := by
  unfold c1merged
  rw [List.getD_append _ _ _ _ (by rw [c1hist_length]; omega)]
  unfold c1hist
  rw [getD_range_map (by omega : 50 < 51)]
  norm_num

theorem c1merged_ts51 : (c1merged.getD 51 default).ts = 15 := by
  unfold c1merged
  rw [List.getD_append_right _ _ _ _ (by rw [c1hist_length]), c1hist_length]
  rfl

theorem c1X_eq :
    c1X = [rowAt extDefault c1merged 49, rowAt extDefault c1merged 50,
           rowAt extDefault c1merged 51] := by
  have hclose : ∀ i, i < c1merged.length → 0 < closeQ c1merged i := by
    intro i hi
    rw [c1merged_close (by rw [c1merged_length] at hi; exact hi)]
    positivity
  have hvol : ∀ i, i < c1merged.length → 0 < volQ c1merged i := by
    intro i hi
    rw [c1merged_vol (by rw [c1merged_length] at hi; exact hi)]
    norm_num
  have hrsi : ∀ i, 49 ≤ i → i + 1 < c1merged.length →
      lossSum c1merged i = 0 → gainSum c1merged i ≠ 0 := by
    intro i h49 hi hL hG
    have hi' : i + 1 < 53 := by rw [c1merged_length] at hi; exact hi
    exact window_not_all_zero (by omega)
      ⟨i, by omega, le_refl i, by rw [c1merged_delta (by omega) (by omega)]; norm_num⟩
      ⟨hL, hG⟩
  rw [show c1X = calculate_technical_features extDefault c1merged from rfl,
    calculate_technical_features_eq hclose hvol hrsi]
  simp only [c1merged_length]
  rw [show (List.range 53).filter (fun t => decide (49 ≤ t) && decide (t + 1 < 53))
      = [49, 50, 51] from by decide]
  rfl

/-- C1 (code evidence): with out-of-order feedback merged after the
history, the positional 80/20 split hands ModelTrainer a train partition
(timestamps 500, 510) and a test partition (timestamp 15) in which a test
timestamp precedes a train timestamp: position after assembly does not
coincide with chronological order, so max(train ts) < min(test ts) fails. -/
theorem c1_unsorted_feedback_breaks_chronology :
    load_training_data extDefault c1state = some (c1X, feature_cols) ∧
    c1X.length = 3 ∧
    (trainPart c1X).map FeatRow.ts = [500, 510] ∧
    (testPart c1X).map FeatRow.ts = [15] ∧
    ∃ a ∈ (trainPart c1X).map FeatRow.ts, ∃ b ∈ (testPart c1X).map FeatRow.ts, b < a := by
  have htr : (trainPart c1X).map FeatRow.ts = [500, 510] := by
    rw [c1X_eq]
    show [(rowAt extDefault c1merged 49).ts, (rowAt extDefault c1merged 50).ts] = [500, 510]
    rw [show (rowAt extDefault c1merged 49).ts = (c1merged.getD 49 default).ts from rfl,
      show (rowAt extDefault c1merged 50).ts = (c1merged.getD 50 default).ts from rfl,
      c1merged_ts49, c1merged_ts50]
  have hte : (testPart c1X).map FeatRow.ts = [15] := by
    rw [c1X_eq]
    show [(rowAt extDefault c1merged 51).ts] = [15]
    rw [show (rowAt extDefault c1merged 51).ts = (c1merged.getD 51 default).ts from rfl,
      c1merged_ts51]
  refine ⟨?_, ?_, htr, hte, ?_⟩
  · simp [load_training_data, load_feedback_data, c1state, c1X, c1merged, c1fb]
  · rw [c1X_eq]
    rfl
  · rw [htr, hte]
    exact ⟨510, by simp, 15, by simp, by norm_num⟩

end SolanaRetrain
